import Mathlib

/-! # MultiClassAccuracy and MultiSoftmaxWithLoss layers

A shallow embedding of `multi_class_accuracy_layer.cpp` and
`multi_softmax_loss_layer.cpp`.

* `Dtype` is read as an exact linearly ordered field `α` with a floor function
  (rounding, NaN and infinities of `float`/`double` are outside the model).
* `int` extents and indices are natural numbers; the integer obtained by
  `static_cast<int>` from a `Dtype` is an `Int`.
* A `CHECK_*` or `LOG(FATAL)` that fires, and an integer division by zero, are
  results of type `Except Failure _`.
* The transcendental functions `exp` and `log` of `<cmath>` are passed to the
  loss layer as arguments, so that every definition stays executable; the
  theorems about the loss instantiate them with `Real.exp` and `Real.log`.
-/

set_option autoImplicit false
set_option linter.unusedSectionVars false

namespace caffe

/-! ## Failures -/

/-- The ways a call can stop the process. -/
inductive Failure where
  /-- a `CHECK_EQ` / `CHECK_LE` whose condition is false -/
  | check_failed
  /-- an `int` division or remainder whose divisor is zero -/
  | division_by_zero
  /-- a `LOG(FATAL)` statement that was reached -/
  | log_fatal
  deriving DecidableEq

/-- The C++ expression `a / b` on non-negative `int`s. -/
def int_div (a b : Nat) : Except Failure Nat :=
  if b = 0 then .error .division_by_zero else .ok (a / b)

/-- The C++ expression `a % b` on non-negative `int`s. -/
def int_mod (a b : Nat) : Except Failure Nat :=
  if b = 0 then .error .division_by_zero else .ok (a % b)

/-- The conversion `static_cast<int>(x)`: truncation towards zero. -/
def static_cast_int {α : Type} [LinearOrderedField α] [FloorRing α] (x : α) : Int :=
  if 0 ≤ x then Int.floor x else Int.ceil x

/-! ## Blobs -/

/-- Modelled from the spec: the tensor abstraction `Blob<Dtype>` (`caffe/blob.hpp`
is not among the sources). A row-major contiguous buffer with a four-extent
shape, a value store and a gradient store, both addressed by linear offset. The
stores are total maps from positions to values; the blob's own range checks on
indices are not part of the model. -/
structure Blob (α : Type) where
  num : Nat
  channels : Nat
  height : Nat
  width : Nat
  cpu_data : Nat → α
  cpu_diff : Nat → α

namespace Blob

variable {α : Type}

/-- The extent of one axis, `shape(axis)`. -/
def shape (b : Blob α) (axis : Nat) : Nat :=
  match axis with
  | 0 => b.num
  | 1 => b.channels
  | 2 => b.height
  | _ => b.width

/-- The number of elements, `count()`. -/
def count (b : Blob α) : Nat := b.num * b.channels * b.height * b.width

/-- The linear offset `offset(n, c, h, w)`. -/
def offset (b : Blob α) (n c : Nat) (h : Nat) (w : Nat) : Nat :=
  ((n * b.channels + c) * b.height + h) * b.width + w

/-- The linear offset `offset(n, c, 0, 0)` when the channel index is a signed `int`. -/
def offset_int (b : Blob α) (n : Nat) (c : Int) : Int :=
  (((n : Int) * (b.channels : Int) + c) * (b.height : Int) + 0) * (b.width : Int) + 0

/-- The element read `data_at(n, c, h, w)`. -/
def data_at (b : Blob α) (n c : Nat) (h : Nat) (w : Nat) : α :=
  b.cpu_data (b.offset n c h w)

/-- The element read `data_at(n, c, 0, 0)` when the channel index is a signed `int`. -/
def data_at_int (b : Blob α) (n : Nat) (c : Int) : α :=
  b.cpu_data (b.offset_int n c).toNat

/-- The call `Reshape(n, c, h, w)`: the extents change, the stores are kept. -/
def Reshape (b : Blob α) (n c : Nat) (h : Nat) (w : Nat) : Blob α :=
  { b with num := n, channels := c, height := h, width := w }

/-- The call `ReshapeLike(other)`. -/
def ReshapeLike (b other : Blob α) : Blob α :=
  b.Reshape other.num other.channels other.height other.width

/-- The blob whose value at linear position `i` is replaced by `t`: the variation of
one score, all others and the shape held fixed. -/
def set_data (b : Blob α) (i : Nat) (t : α) : Blob α :=
  { b with cpu_data := Function.update b.cpu_data i t }

end Blob

/-- The call `caffe_copy(n, src, dst)`: the first `n` entries of `dst` become those of `src`. -/
def caffe_copy {α : Type} (n : Nat) (src dst : Nat → α) : Nat → α :=
  fun i => if i < n then src i else dst i

/-- The call `caffe_scal(n, a, x)`: the first `n` entries of `x` are multiplied by `a`. -/
def caffe_scal {α : Type} [Mul α] (n : Nat) (a : α) (x : Nat → α) : Nat → α :=
  fun i => if i < n then a * x i else x i

/-! ## `std::max_element` -/

/-- The scan of `std::max_element` after `k` further elements beyond `first` have
been visited: the position of the largest element so far, an element replacing
the current one only when it is strictly larger. -/
def max_element_scan {α : Type} [LinearOrder α] (data : Nat → α) (first : Nat) : Nat → Nat
  | 0 => first
  | k + 1 =>
    let largest := max_element_scan data first k
    if data largest < data (first + (k + 1)) then first + (k + 1) else largest

/-- The call `std::max_element(begin, end)` on positions of a buffer: `first` itself
when the range is empty. -/
def max_element {α : Type} [LinearOrder α] (data : Nat → α) (first last : Nat) : Nat :=
  if last ≤ first then first else max_element_scan data first (last - first - 1)

/-! ## MultiClassAccuracyLayer -/

/-- The members of `MultiClassAccuracyLayer` set by `LayerSetUp`. -/
structure MultiClassAccuracyLayer where
  top_k_ : Nat
  label_axis_ : Nat
  num_classes_ : Nat
  num_classifiers_ : Nat
  deriving DecidableEq

namespace MultiClassAccuracyLayer

variable {α : Type}

/-- `MultiClassAccuracyLayer::LayerSetUp`; `top_k` and `axis` are the two values read
from `accuracy_param` (the axis already canonical). -/
def LayerSetUp (top_k axis : Nat) (bottom0 bottom1 : Blob α) :
    Except Failure MultiClassAccuracyLayer := do
  let r ← int_mod (bottom0.shape axis) (bottom1.shape axis)
  if r ≠ 0 then throw Failure.check_failed
  let num_classes ← int_div (bottom0.shape axis) (bottom1.shape axis)
  let num_classifiers ← int_div (bottom0.shape axis) num_classes
  pure { top_k_ := top_k, label_axis_ := axis,
         num_classes_ := num_classes, num_classifiers_ := num_classifiers }

/-- `MultiClassAccuracyLayer::Reshape`; the result is the layer and the reshaped top blob. -/
def Reshape (layer : MultiClassAccuracyLayer) (axis : Nat) (bottom0 bottom1 top0 : Blob α) :
    Except Failure (MultiClassAccuracyLayer × Blob α) := do
  let q ← int_div bottom0.count bottom1.count
  if ¬ layer.top_k_ ≤ q then throw Failure.check_failed
  pure ({ layer with label_axis_ := axis }, top0.Reshape layer.num_classifiers_ 1 1 1)

variable [LinearOrderedField α] [FloorRing α]

/-- The local `label_value` of `Forward_cpu` for example `n` and classifier `classifier_id`. -/
def label_value (bottom1 : Blob α) (n classifier_id : Nat) : Int :=
  static_cast_int (bottom1.data_at n classifier_id 0 0)

/-- The local `max_id` of `Forward_cpu`: the distance from `begin` to the result of
`std::max_element(begin, end)`. -/
def max_id (layer : MultiClassAccuracyLayer) (bottom0 : Blob α) (n classifier_id : Nat) : Nat :=
  let first := bottom0.offset n (classifier_id * layer.num_classes_) 0 0
  let last := bottom0.offset n ((classifier_id + 1) * layer.num_classes_) 0 0
  max_element bottom0.cpu_data first last - first

/-- The body of the inner loop of `Forward_cpu` for one `(n, classifier_id)`. -/
def forward_step (layer : MultiClassAccuracyLayer) (bottom0 bottom1 : Blob α)
    (n classifier_id : Nat) (correct_predictions : Nat → α) : Nat → α :=
  if (max_id layer bottom0 n classifier_id : Int) = label_value bottom1 n classifier_id then
    Function.update correct_predictions classifier_id (correct_predictions classifier_id + 1)
  else correct_predictions

/-- The inner loop of `Forward_cpu` run for `classifier_id = 0, ..., k - 1`. -/
def forward_classifiers (layer : MultiClassAccuracyLayer) (bottom0 bottom1 : Blob α) (n : Nat) :
    Nat → (Nat → α) → (Nat → α)
  | 0, correct_predictions => correct_predictions
  | k + 1, correct_predictions =>
    forward_step layer bottom0 bottom1 n k
      (forward_classifiers layer bottom0 bottom1 n k correct_predictions)

/-- The outer loop of `Forward_cpu` run for `n = 0, ..., m - 1`. -/
def forward_examples (layer : MultiClassAccuracyLayer) (bottom0 bottom1 : Blob α) :
    Nat → (Nat → α) → (Nat → α)
  | 0, correct_predictions => correct_predictions
  | m + 1, correct_predictions =>
    forward_classifiers layer bottom0 bottom1 m layer.num_classifiers_
      (forward_examples layer bottom0 bottom1 m correct_predictions)

/-- `MultiClassAccuracyLayer::Forward_cpu`; the result is the top blob. The vector
`correct_predictions` has `num_classifiers_` entries, all zero at the start. The two
`DCHECK`s on `label_value` are compiled out, as in a release build. -/
def Forward_cpu (layer : MultiClassAccuracyLayer) (bottom0 bottom1 top0 : Blob α) : Blob α :=
  let correct_predictions : Nat → α :=
    forward_examples layer bottom0 bottom1 bottom0.num (fun _ => 0)
  { top0 with
    cpu_data := fun prediction_id =>
      if prediction_id < layer.num_classifiers_ then
        correct_predictions prediction_id / (bottom0.num : α)
      else top0.cpu_data prediction_id }

end MultiClassAccuracyLayer

/-! ## The softmax sub-layer -/

/-- The loop `for (i = 0; i < k; ++i) acc += f(i)` started from zero. -/
def sum_to {α : Type} [Zero α] [Add α] (f : Nat → α) : Nat → α
  | 0 => 0
  | k + 1 => sum_to f k + f k

/-- The largest of the `k` scores of the row starting at `start`, computed as the
softmax layer does: initialised with the first score, then `max`-ed with each. -/
def row_max {α : Type} [LinearOrder α] (x : Nat → α) (start : Nat) : Nat → α
  | 0 => x start
  | k + 1 => max (row_max x start k) (x (start + k))

/-- Modelled from the spec: the softmax primitive (`softmax_layer.cpp` is not among
the sources). Entry `j` of the normalised row of `K` scores starting at `start`:
the row maximum is subtracted before exponentiating, then the row is divided by
its sum. -/
def softmax_prob {α : Type} [LinearOrderedField α] (exp : α → α) (x : Nat → α)
    (start K j : Nat) : α :=
  exp (x (start + j) - row_max x start K) /
    sum_to (fun k => exp (x (start + k) - row_max x start K)) K

/-- Modelled from the spec: the call `softmax_layer_->Forward(bottom, top)` on a
`rows × num_classes` bottom blob; each entry of the top blob below `count()` is
overwritten by the normalised probability of its row. -/
def softmax_forward {α : Type} [LinearOrderedField α] (exp : α → α)
    (bottom top : Blob α) : Blob α :=
  { top with
    cpu_data := fun i =>
      if i < bottom.count then
        softmax_prob exp bottom.cpu_data (i / bottom.channels * bottom.channels)
          bottom.channels (i % bottom.channels)
      else top.cpu_data i }

/-- The constant `FLT_MIN` of `<cfloat>`, the smallest positive normal `float`. -/
def FLT_MIN {α : Type} [LinearOrderedField α] : α := 1 / 2 ^ 126

/-! ## MultiSoftmaxWithLossLayer -/

/-- The members of `MultiSoftmaxWithLossLayer`. -/
structure MultiSoftmaxWithLossLayer (α : Type) where
  softmax_axis_ : Nat
  num_classes_ : Nat
  num_classifiers_ : Nat
  single_softmax_bottom : Blob α
  prob_ : Blob α

namespace MultiSoftmaxWithLossLayer

variable {α : Type} [LinearOrderedField α] [FloorRing α]

/-- A blob as a freshly constructed layer holds it: no extent, zeroed stores. -/
def empty_blob : Blob α :=
  { num := 0, channels := 0, height := 0, width := 0,
    cpu_data := fun _ => 0, cpu_diff := fun _ => 0 }

/-- `MultiSoftmaxWithLossLayer::LayerSetUp`; `axis` is the value read from
`softmax_param` (already canonical). Setting up the inner softmax layer shapes
`prob_` like its bottom blob. -/
def LayerSetUp (axis : Nat) (bottom0 bottom1 : Blob α) :
    Except Failure (MultiSoftmaxWithLossLayer α) := do
  let r ← int_mod (bottom0.shape axis) (bottom1.shape axis)
  if r ≠ 0 then throw Failure.check_failed
  let num_classes ← int_div (bottom0.shape axis) (bottom1.shape axis)
  let num_classifiers ← int_div (bottom0.shape axis) num_classes
  let single_softmax_bottom : Blob α :=
    empty_blob.Reshape (bottom0.num * num_classifiers) num_classes 1 1
  pure { softmax_axis_ := axis, num_classes_ := num_classes,
         num_classifiers_ := num_classifiers,
         single_softmax_bottom := single_softmax_bottom,
         prob_ := empty_blob.ReshapeLike single_softmax_bottom }

/-- `MultiSoftmaxWithLossLayer::Reshape`. -/
def Reshape (layer : MultiSoftmaxWithLossLayer α) (bottom0 bottom1 : Blob α) :
    Except Failure (MultiSoftmaxWithLossLayer α) := do
  let single_softmax_bottom :=
    layer.single_softmax_bottom.Reshape (bottom0.num * layer.num_classifiers_)
      layer.num_classes_ 1 1
  let prob := layer.prob_.ReshapeLike single_softmax_bottom
  let q ← int_div bottom0.count layer.num_classes_
  if q ≠ bottom1.count then throw Failure.check_failed
  pure { layer with single_softmax_bottom := single_softmax_bottom, prob_ := prob }

/-- The local `label_value` of `Forward_cpu` and `Backward_cpu` for row `n`. -/
def label_value (bottom1 : Blob α) (n : Nat) : Int :=
  static_cast_int (bottom1.cpu_data n)

/-- The loop of `Forward_cpu` over the rows `n = 0, ..., m - 1`: the local `loss`. -/
def forward_loss (log : α → α) (prob : Blob α) (bottom1 : Blob α) : Nat → α
  | 0 => 0
  | m + 1 =>
    forward_loss log prob bottom1 m -
      log (max (prob.data_at_int m (label_value bottom1 m)) FLT_MIN)

/-- `MultiSoftmaxWithLossLayer::Forward_cpu`; the result is the layer (its two
buffers rewritten) and the top blob. The two `DCHECK`s on `label_value` are compiled
out, as in a release build. -/
def Forward_cpu (exp log : α → α) (layer : MultiSoftmaxWithLossLayer α)
    (bottom0 bottom1 top0 : Blob α) : MultiSoftmaxWithLossLayer α × Blob α :=
  let single_softmax_bottom : Blob α :=
    { layer.single_softmax_bottom with
      cpu_data := caffe_copy layer.single_softmax_bottom.count bottom0.cpu_data
        layer.single_softmax_bottom.cpu_data }
  let prob := softmax_forward exp single_softmax_bottom layer.prob_
  let loss := forward_loss log prob bottom1 single_softmax_bottom.num
  ({ layer with single_softmax_bottom := single_softmax_bottom, prob_ := prob },
   { top0 with cpu_data := Function.update top0.cpu_data 0 (loss / (bottom0.num : α)) })

/-- The first loop of `Backward_cpu` over the rows `n = 0, ..., m - 1`: one is
subtracted from `prob_data` at the label position of each row. -/
def backward_rows (prob : Blob α) (bottom1 : Blob α) : Nat → (Nat → α)
  | 0 => prob.cpu_data
  | m + 1 =>
    let prob_data := backward_rows prob bottom1 m
    let at_label := (prob.offset_int m (label_value bottom1 m)).toNat
    Function.update prob_data at_label (prob_data at_label - 1)

/-- `MultiSoftmaxWithLossLayer::Backward_cpu`; `propagate_down0` and `propagate_down1`
are the two entries of `propagate_down`. The result is the layer (its `prob_`
modified in place) and the first bottom blob (its gradient store written). -/
def Backward_cpu (layer : MultiSoftmaxWithLossLayer α) (top0 : Blob α)
    (propagate_down0 propagate_down1 : Bool) (bottom0 bottom1 : Blob α) :
    Except Failure (MultiSoftmaxWithLossLayer α × Blob α) :=
  if propagate_down1 then .error Failure.log_fatal
  else if propagate_down0 then
    let prob_data := backward_rows layer.prob_ bottom1 layer.prob_.num
    let bottom_diff := caffe_copy bottom0.count prob_data bottom0.cpu_diff
    let loss_weight := top0.cpu_diff 0 / (bottom0.num : α)
    .ok ({ layer with prob_ := { layer.prob_ with cpu_data := prob_data } },
         { bottom0 with cpu_diff := caffe_scal bottom0.count loss_weight bottom_diff })
  else .ok (layer, bottom0)

/-- The memory when `Backward_cpu` returns or stops (the layer and the first bottom
blob), with the failure it stopped on, if any. The `LOG(FATAL)` on `propagate_down[1]`
is the first statement of the function, before every write. -/
def Backward_cpu_exit (layer : MultiSoftmaxWithLossLayer α) (top0 : Blob α)
    (propagate_down0 propagate_down1 : Bool) (bottom0 bottom1 : Blob α) :
    (MultiSoftmaxWithLossLayer α × Blob α) × Option Failure :=
  if propagate_down1 then ((layer, bottom0), some Failure.log_fatal)
  else if propagate_down0 then
    let prob_data := backward_rows layer.prob_ bottom1 layer.prob_.num
    let bottom_diff := caffe_copy bottom0.count prob_data bottom0.cpu_diff
    let loss_weight := top0.cpu_diff 0 / (bottom0.num : α)
    (({ layer with prob_ := { layer.prob_ with cpu_data := prob_data } },
      { bottom0 with cpu_diff := caffe_scal bottom0.count loss_weight bottom_diff }), none)
  else ((layer, bottom0), none)

/-- The configuration and the buffer shapes of a layer set up for `N` examples of `C`
classifiers with `K` classes each. -/
def configured (layer : MultiSoftmaxWithLossLayer α) (N C K : Nat) : Prop :=
  layer.num_classes_ = K ∧ layer.num_classifiers_ = C ∧
  (layer.single_softmax_bottom.num = N * C ∧ layer.single_softmax_bottom.channels = K ∧
    layer.single_softmax_bottom.height = 1 ∧ layer.single_softmax_bottom.width = 1) ∧
  (layer.prob_.num = N * C ∧ layer.prob_.channels = K ∧
    layer.prob_.height = 1 ∧ layer.prob_.width = 1)

/-- The layer state after setup (`LayerSetUp`, then `Reshape`) on inputs of `N` examples
of `C` classifiers with `K` classes: both buffers have `N * C` rows of `K` columns
and zeroed stores. -/
def after_setup (N C K : Nat) : MultiSoftmaxWithLossLayer α :=
  { softmax_axis_ := 1, num_classes_ := K, num_classifiers_ := C,
    single_softmax_bottom := empty_blob.Reshape (N * C) K 1 1,
    prob_ := empty_blob.Reshape (N * C) K 1 1 }

/-- The layer states that a sequence of calls can produce at the shape of `N` examples
of `C` classifiers with `K` classes: the state after setup (`LayerSetUp`, then
`Reshape`) on inputs of that shape, and the state after any successful
`Forward_cpu` or `Backward_cpu` on such a state. -/
inductive reachable (exp log : α → α) (N C K : Nat) : MultiSoftmaxWithLossLayer α → Prop
  | setup (bottom0 bottom1 : Blob α) (layer : MultiSoftmaxWithLossLayer α) :
      1 ≤ C → 1 ≤ K →
      (bottom0.num = N ∧ bottom0.channels = C * K ∧ bottom0.height = 1 ∧ bottom0.width = 1) →
      (bottom1.num = N ∧ bottom1.channels = C ∧ bottom1.height = 1 ∧ bottom1.width = 1) →
      (LayerSetUp 1 bottom0 bottom1 >>= fun l => Reshape l bottom0 bottom1) = .ok layer →
      reachable exp log N C K layer
  | forward (layer : MultiSoftmaxWithLossLayer α) (bottom0 bottom1 top0 : Blob α) :
      reachable exp log N C K layer →
      reachable exp log N C K (Forward_cpu exp log layer bottom0 bottom1 top0).1
  | backward (layer layer1 : MultiSoftmaxWithLossLayer α) (top0 bottom0 bottom1 bottom01 : Blob α)
      (propagate_down0 propagate_down1 : Bool) :
      reachable exp log N C K layer →
      Backward_cpu layer top0 propagate_down0 propagate_down1 bottom0 bottom1 =
        .ok (layer1, bottom01) →
      reachable exp log N C K layer1

end MultiSoftmaxWithLossLayer

/-! ## Evaluation on small inputs -/

/-- A blob of extents `(n, c, 1, 1)` whose value store lists `xs` (zero beyond). -/
def blob_of {α : Type} [Zero α] (n c : Nat) (xs : List α) : Blob α :=
  { num := n, channels := c, height := 1, width := 1,
    cpu_data := fun i => xs.getD i 0, cpu_diff := fun _ => 0 }

/-- A blob of extents `(n, c, h, w)` with zeroed stores. -/
def blob_of_shape {α : Type} [Zero α] (n c : Nat) (h : Nat) (w : Nat) : Blob α :=
  { num := n, channels := c, height := h, width := w,
    cpu_data := fun _ => 0, cpu_diff := fun _ => 0 }

/-- A top blob of one entry whose gradient store holds the upstream weight `w`. -/
def top_with_weight {α : Type} [Zero α] (w : α) : Blob α :=
  { num := 1, channels := 1, height := 1, width := 1,
    cpu_data := fun _ => 0, cpu_diff := fun _ => w }

end caffe

/-! # Theorems -/

namespace caffe

section Setup

variable {α : Type}

theorem int_mod_of_pos (a b : Nat) (hb : 1 ≤ b) : int_mod a b = .ok (a % b) := by
  unfold int_mod
  rw [if_neg (by omega)]

theorem int_div_of_pos (a b : Nat) (hb : 1 ≤ b) : int_div a b = .ok (a / b) := by
  unfold int_div
  rw [if_neg (by omega)]

theorem div_div_self_of_dvd (P L : Nat) (hP : 1 ≤ P) (hdiv : P % L = 0) :
    1 ≤ P / L ∧ P / (P / L) = L ∧ P / L * L = P := by
  have hd : L ∣ P := Nat.dvd_of_mod_eq_zero hdiv
  obtain ⟨k, rfl⟩ := hd
  have hL : 0 < L := by
    rcases Nat.eq_zero_or_pos L with h | h
    · subst h; simp at hP
    · exact h
  have hk : 0 < k := by
    rcases Nat.eq_zero_or_pos k with h | h
    · subst h; simp at hP
    · exact h
  rw [Nat.mul_div_cancel_left k hL]
  exact ⟨hk, Nat.mul_div_cancel L hk, Nat.mul_comm k L⟩

/-- The value of the accuracy layer's `LayerSetUp` when the label extent is positive
and divides the positive prediction extent. -/
theorem accuracy_LayerSetUp_eq (top_k axis : Nat) (bottom0 bottom1 : Blob α)
    (hP : 1 ≤ bottom0.shape axis) (hL : 1 ≤ bottom1.shape axis)
    (hdiv : bottom0.shape axis % bottom1.shape axis = 0) :
    MultiClassAccuracyLayer.LayerSetUp top_k axis bottom0 bottom1 =
      .ok { top_k_ := top_k, label_axis_ := axis,
            num_classes_ := bottom0.shape axis / bottom1.shape axis,
            num_classifiers_ := bottom1.shape axis } := by
  obtain ⟨h1, h2, _⟩ := div_div_self_of_dvd _ _ hP hdiv
  unfold MultiClassAccuracyLayer.LayerSetUp
  rw [int_mod_of_pos _ _ hL, int_div_of_pos _ _ hL]
  simp only [bind, Except.bind, hdiv, ne_eq, not_true_eq_false, if_false, pure, Except.pure]
  rw [int_div_of_pos _ _ h1, h2]

/-- The value of the loss layer's `LayerSetUp` when the label extent is positive and
divides the positive prediction extent. -/
theorem loss_LayerSetUp_eq [LinearOrderedField α] [FloorRing α]
    (axis : Nat) (bottom0 bottom1 : Blob α)
    (hP : 1 ≤ bottom0.shape axis) (hL : 1 ≤ bottom1.shape axis)
    (hdiv : bottom0.shape axis % bottom1.shape axis = 0) :
    MultiSoftmaxWithLossLayer.LayerSetUp axis bottom0 bottom1 =
      .ok { softmax_axis_ := axis,
            num_classes_ := bottom0.shape axis / bottom1.shape axis,
            num_classifiers_ := bottom1.shape axis,
            single_softmax_bottom :=
              MultiSoftmaxWithLossLayer.empty_blob.Reshape
                (bottom0.num * bottom1.shape axis)
                (bottom0.shape axis / bottom1.shape axis) 1 1,
            prob_ :=
              MultiSoftmaxWithLossLayer.empty_blob.Reshape
                (bottom0.num * bottom1.shape axis)
                (bottom0.shape axis / bottom1.shape axis) 1 1 } := by
  obtain ⟨h1, h2, _⟩ := div_div_self_of_dvd _ _ hP hdiv
  unfold MultiSoftmaxWithLossLayer.LayerSetUp
  rw [int_mod_of_pos _ _ hL, int_div_of_pos _ _ hL]
  simp only [bind, Except.bind, hdiv, ne_eq, not_true_eq_false, if_false, pure, Except.pure]
  rw [int_div_of_pos _ _ h1, h2]
  rfl

/-- Claim C5. Setup of either layer, for a prediction extent `P ≥ 1` and a label
extent `L ≥ 1` with `P % L = 0`, succeeds and stores `num_classes_ = P / L` and
`num_classifiers_ = L`, whose product is `P`; both integer divisions it performs
have a non-zero divisor (`L` and `P / L`) and so return a quotient. -/
theorem C5_setup_derives_configuration [LinearOrderedField α] [FloorRing α]
    (top_k axis : Nat) (bottom0 bottom1 : Blob α)
    (hP : 1 ≤ bottom0.shape axis) (hL : 1 ≤ bottom1.shape axis)
    (hdiv : bottom0.shape axis % bottom1.shape axis = 0) :
    (∃ layer, MultiClassAccuracyLayer.LayerSetUp top_k axis bottom0 bottom1 = .ok layer ∧
        layer.num_classes_ = bottom0.shape axis / bottom1.shape axis ∧
        layer.num_classifiers_ = bottom1.shape axis ∧
        layer.num_classes_ * layer.num_classifiers_ = bottom0.shape axis) ∧
    (∃ layer, MultiSoftmaxWithLossLayer.LayerSetUp axis bottom0 bottom1 = .ok layer ∧
        layer.num_classes_ = bottom0.shape axis / bottom1.shape axis ∧
        layer.num_classifiers_ = bottom1.shape axis ∧
        layer.num_classes_ * layer.num_classifiers_ = bottom0.shape axis) ∧
    int_div (bottom0.shape axis) (bottom1.shape axis) =
        .ok (bottom0.shape axis / bottom1.shape axis) ∧
    int_div (bottom0.shape axis) (bottom0.shape axis / bottom1.shape axis) =
        .ok (bottom1.shape axis) := by
  obtain ⟨h1, h2, h3⟩ := div_div_self_of_dvd _ _ hP hdiv
  refine ⟨⟨_, accuracy_LayerSetUp_eq top_k axis bottom0 bottom1 hP hL hdiv,
      rfl, rfl, h3⟩,
    ⟨_, loss_LayerSetUp_eq axis bottom0 bottom1 hP hL hdiv,
      rfl, rfl, h3⟩, int_div_of_pos _ _ hL, ?_⟩
  rw [int_div_of_pos _ _ h1, h2]

/-- Claim C6. For a label extent `L ≥ 1`, setup of either layer stops on its
`CHECK_EQ` exactly when the prediction extent `P` is not a multiple of `L`. -/
theorem C6_setup_check_fails_iff [LinearOrderedField α] [FloorRing α]
    (top_k axis : Nat) (bottom0 bottom1 : Blob α) (hL : 1 ≤ bottom1.shape axis) :
    (MultiClassAccuracyLayer.LayerSetUp top_k axis bottom0 bottom1 =
        .error Failure.check_failed ↔ bottom0.shape axis % bottom1.shape axis ≠ 0) ∧
    (MultiSoftmaxWithLossLayer.LayerSetUp axis bottom0 bottom1 =
        .error Failure.check_failed ↔ bottom0.shape axis % bottom1.shape axis ≠ 0) := by
  unfold MultiClassAccuracyLayer.LayerSetUp MultiSoftmaxWithLossLayer.LayerSetUp
  rw [int_mod_of_pos _ _ hL, int_div_of_pos _ _ hL]
  by_cases hdiv : bottom0.shape axis % bottom1.shape axis = 0
  · simp only [bind, Except.bind, hdiv, ne_eq, not_true_eq_false, if_false, pure, Except.pure]
    unfold int_div
    constructor <;> split_ifs <;> simp
  · simp only [bind, Except.bind, hdiv, ne_eq, not_false_eq_true, if_true, throw,
      throwThe, MonadExceptOf.throw, and_self]

/-- Claim C5 at the shapes of the multi-classifier test: `P = 10`, `L = 5`. -/
theorem C5_setup_derives_configuration_witness :
    (∃ layer, MultiClassAccuracyLayer.LayerSetUp 1 1
          (blob_of 100 10 ([] : List ℚ)) (blob_of 100 5 []) = .ok layer ∧
        layer.num_classes_ = 10 / 5 ∧ layer.num_classifiers_ = 5 ∧
        layer.num_classes_ * layer.num_classifiers_ = 10) ∧
    (∃ layer, MultiSoftmaxWithLossLayer.LayerSetUp 1
          (blob_of 100 10 ([] : List ℚ)) (blob_of 100 5 []) = .ok layer ∧
        layer.num_classes_ = 10 / 5 ∧ layer.num_classifiers_ = 5 ∧
        layer.num_classes_ * layer.num_classifiers_ = 10) ∧
    int_div 10 5 = .ok (10 / 5) ∧ int_div 10 (10 / 5) = .ok 5 :=
  C5_setup_derives_configuration 1 1 (blob_of 100 10 ([] : List ℚ)) (blob_of 100 5 [])
    (by decide) (by decide) (by decide)

/-- Claim C6 at a label extent that does not divide the prediction extent:
`P = 10`, `L = 3`. -/
theorem C6_setup_check_fails_iff_witness :
    (MultiClassAccuracyLayer.LayerSetUp 1 1 (blob_of 100 10 ([] : List ℚ)) (blob_of 100 3 []) =
        .error Failure.check_failed ↔ 10 % 3 ≠ 0) ∧
    (MultiSoftmaxWithLossLayer.LayerSetUp 1 (blob_of 100 10 ([] : List ℚ)) (blob_of 100 3 []) =
        .error Failure.check_failed ↔ 10 % 3 ≠ 0) :=
  C6_setup_check_fails_iff 1 1 (blob_of 100 10 ([] : List ℚ)) (blob_of 100 3 []) (by decide)

end Setup

section Accuracy

variable {α : Type}

/-- The result of the `std::max_element` scan over `first, ..., first + k`: it lies in
that range, holds a largest element, and every earlier position holds a strictly
smaller one. -/
theorem max_element_scan_spec [LinearOrder α] (data : Nat → α) (first k : Nat) :
    first ≤ max_element_scan data first k ∧
    max_element_scan data first k ≤ first + k ∧
    (∀ j, j ≤ k → data (first + j) ≤ data (max_element_scan data first k)) ∧
    (∀ j, first + j < max_element_scan data first k →
      data (first + j) < data (max_element_scan data first k)) := by
  induction k with
  | zero =>
    refine ⟨le_refl _, le_refl _, ?_, ?_⟩
    · intro j hj
      have : j = 0 := by omega
      subst this
      exact le_refl _
    · intro j hj
      simp only [max_element_scan] at hj
      omega
  | succ k ih =>
    obtain ⟨h1, h2, h3, h4⟩ := ih
    simp only [max_element_scan]
    split_ifs with hlt
    · refine ⟨by omega, le_refl _, ?_, ?_⟩
      · intro j hj
        rcases Nat.lt_or_ge j (k + 1) with hjk | hjk
        · exact le_trans (h3 j (by omega)) (le_of_lt hlt)
        · have : j = k + 1 := by omega
          subst this
          exact le_refl _
      · intro j hj
        exact lt_of_le_of_lt (h3 j (by omega)) hlt
    · refine ⟨h1, by omega, ?_, h4⟩
      intro j hj
      rcases Nat.lt_or_ge j (k + 1) with hjk | hjk
      · exact h3 j (by omega)
      · have : j = k + 1 := by omega
        subst this
        exact not_lt.mp hlt

variable [LinearOrderedField α] [FloorRing α]

/-- On a bottom blob of height and width one and with at least one class, `max_id` is
an index below `num_classes_` of a largest score of the classifier's slice, and
every lower index of the slice holds a strictly smaller score. -/
theorem max_id_spec (layer : MultiClassAccuracyLayer) (bottom0 : Blob α)
    (hh : bottom0.height = 1) (hw : bottom0.width = 1) (hK : 1 ≤ layer.num_classes_)
    (n c : Nat) :
    MultiClassAccuracyLayer.max_id layer bottom0 n c < layer.num_classes_ ∧
    (∀ j, j < layer.num_classes_ →
      bottom0.data_at n (c * layer.num_classes_ + j) 0 0 ≤
        bottom0.data_at n (c * layer.num_classes_ +
          MultiClassAccuracyLayer.max_id layer bottom0 n c) 0 0) ∧
    (∀ j, j < MultiClassAccuracyLayer.max_id layer bottom0 n c →
      bottom0.data_at n (c * layer.num_classes_ + j) 0 0 <
        bottom0.data_at n (c * layer.num_classes_ +
          MultiClassAccuracyLayer.max_id layer bottom0 n c) 0 0) := by
  have hfirst : bottom0.offset n (c * layer.num_classes_) 0 0 =
      n * bottom0.channels + c * layer.num_classes_ := by
    simp [Blob.offset, hh, hw]
  have hlast : bottom0.offset n ((c + 1) * layer.num_classes_) 0 0 =
      n * bottom0.channels + c * layer.num_classes_ + layer.num_classes_ := by
    simp [Blob.offset, hh, hw, Nat.add_mul, Nat.add_assoc]
  have hat : ∀ j, bottom0.data_at n (c * layer.num_classes_ + j) 0 0 =
      bottom0.cpu_data (n * bottom0.channels + c * layer.num_classes_ + j) := by
    intro j
    simp [Blob.data_at, Blob.offset, hh, hw, Nat.add_assoc]
  obtain ⟨h1, h2, h3, h4⟩ := max_element_scan_spec bottom0.cpu_data
    (n * bottom0.channels + c * layer.num_classes_) (layer.num_classes_ - 1)
  have hid : MultiClassAccuracyLayer.max_id layer bottom0 n c =
      max_element_scan bottom0.cpu_data (n * bottom0.channels + c * layer.num_classes_)
        (layer.num_classes_ - 1) - (n * bottom0.channels + c * layer.num_classes_) := by
    simp only [MultiClassAccuracyLayer.max_id, max_element, hfirst, hlast]
    rw [if_neg (by omega)]
    congr 2
    omega
  have hback : n * bottom0.channels + c * layer.num_classes_ +
      MultiClassAccuracyLayer.max_id layer bottom0 n c =
      max_element_scan bottom0.cpu_data (n * bottom0.channels + c * layer.num_classes_)
        (layer.num_classes_ - 1) := by
    rw [hid]; omega
  refine ⟨by rw [hid]; omega, ?_, ?_⟩
  · intro j hj
    rw [hat, hat, hback]
    exact h3 j (by omega)
  · intro j hj
    rw [hat, hat, hback]
    exact h4 j (by rw [hid] at hj; omega)

/-- The loop body adds one to the counter of `classifier_id` when its `max_id` equals
its `label_value`, and changes no other counter. -/
theorem forward_step_apply (layer : MultiClassAccuracyLayer) (bottom0 bottom1 : Blob α)
    (n k : Nat) (cp : Nat → α) (c : Nat) :
    MultiClassAccuracyLayer.forward_step layer bottom0 bottom1 n k cp c =
      cp c + (if c = k ∧ (MultiClassAccuracyLayer.max_id layer bottom0 n k : Int) =
          MultiClassAccuracyLayer.label_value bottom1 n k then 1 else 0) := by
  unfold MultiClassAccuracyLayer.forward_step
  by_cases hck : c = k
  · subst hck
    split_ifs with h1 h2 h2
    · simp
    · exact absurd ⟨rfl, h1⟩ h2
    · exact absurd h2.2 h1
    · simp
  · split_ifs with h1 h2 h2
    · exact absurd h2.1 hck
    · rw [Function.update_noteq hck]; simp
    · exact absurd h2.1 hck
    · simp

/-- One pass of the inner loop adds one to the counter of each classifier below `k`
whose `max_id` equals its `label_value`, and changes no other counter. -/
theorem forward_classifiers_apply (layer : MultiClassAccuracyLayer) (bottom0 bottom1 : Blob α)
    (n k : Nat) (cp : Nat → α) (c : Nat) :
    MultiClassAccuracyLayer.forward_classifiers layer bottom0 bottom1 n k cp c =
      cp c + (if c < k ∧ (MultiClassAccuracyLayer.max_id layer bottom0 n c : Int) =
          MultiClassAccuracyLayer.label_value bottom1 n c then 1 else 0) := by
  induction k with
  | zero => simp [MultiClassAccuracyLayer.forward_classifiers]
  | succ k ih =>
    simp only [MultiClassAccuracyLayer.forward_classifiers]
    rw [forward_step_apply, ih, add_assoc]
    congr 1
    by_cases hck : c = k
    · subst hck
      simp
    · have hiff : c < k + 1 ↔ c < k := by omega
      simp [hck, hiff]

/-- After `m` examples, the counter of classifier `c < num_classifiers_` has grown by
the number of examples below `m` whose `max_id` equals their `label_value`. -/
theorem forward_examples_apply (layer : MultiClassAccuracyLayer) (bottom0 bottom1 : Blob α)
    (m : Nat) (cp : Nat → α) (c : Nat) (hc : c < layer.num_classifiers_) :
    MultiClassAccuracyLayer.forward_examples layer bottom0 bottom1 m cp c =
      cp c + (((Finset.range m).filter (fun n =>
          (MultiClassAccuracyLayer.max_id layer bottom0 n c : Int) =
            MultiClassAccuracyLayer.label_value bottom1 n c)).card : α) := by
  induction m with
  | zero => simp [MultiClassAccuracyLayer.forward_examples]
  | succ m ih =>
    simp only [MultiClassAccuracyLayer.forward_examples]
    rw [forward_classifiers_apply, ih, Finset.range_succ, Finset.filter_insert]
    split_ifs with h1 h2 h2
    · rw [Finset.card_insert_of_not_mem (by simp)]
      push_cast
      ring
    · exact absurd h1.2 h2
    · exact absurd ⟨hc, h2⟩ h1
    · simp

/-- The output of `Forward_cpu` for classifier `c < num_classifiers_`: the number of
examples whose `max_id` equals their `label_value`, divided by the batch size. -/
theorem Forward_cpu_apply (layer : MultiClassAccuracyLayer) (bottom0 bottom1 top0 : Blob α)
    (c : Nat) (hc : c < layer.num_classifiers_) :
    (MultiClassAccuracyLayer.Forward_cpu layer bottom0 bottom1 top0).cpu_data c =
      (((Finset.range bottom0.num).filter (fun n =>
          (MultiClassAccuracyLayer.max_id layer bottom0 n c : Int) =
            MultiClassAccuracyLayer.label_value bottom1 n c)).card : α) /
        (bottom0.num : α) := by
  simp only [MultiClassAccuracyLayer.Forward_cpu, if_pos hc]
  rw [forward_examples_apply layer bottom0 bottom1 _ _ c hc]
  simp

/-- Claim C1. For a batch of `N ≥ 1` examples with predictions of shape `(N, C * K)`
and labels of shape `(N, C)`, setup succeeds and, for every classifier `c < C`,
`Forward_cpu` writes at `c` the number of examples `n < N` for which the index of
the largest score of `prediction[n, c * K .. (c + 1) * K)` (the first such index)
equals the truncated `label[n, c]`, divided by `N`. -/
theorem C1_accuracy_forward_counts (top_k N C K : Nat) (bottom0 bottom1 top0 : Blob α)
    (_hN : 1 ≤ N) (hK : 1 ≤ K)
    (h0 : bottom0.num = N ∧ bottom0.channels = C * K ∧ bottom0.height = 1 ∧ bottom0.width = 1)
    (h1 : bottom1.num = N ∧ bottom1.channels = C ∧ bottom1.height = 1 ∧ bottom1.width = 1)
    (c : Nat) (hc : c < C) :
    ∃ layer, MultiClassAccuracyLayer.LayerSetUp top_k 1 bottom0 bottom1 = .ok layer ∧
      ∃ idx : Nat → Nat,
        (∀ n, n < N → idx n < K ∧
          (∀ j, j < K →
            bottom0.data_at n (c * K + j) 0 0 ≤ bottom0.data_at n (c * K + idx n) 0 0) ∧
          (∀ j, j < idx n →
            bottom0.data_at n (c * K + j) 0 0 < bottom0.data_at n (c * K + idx n) 0 0)) ∧
        (MultiClassAccuracyLayer.Forward_cpu layer bottom0 bottom1 top0).cpu_data c =
          (((Finset.range N).filter (fun n =>
              (idx n : Int) = static_cast_int (bottom1.data_at n c 0 0))).card : α) / (N : α) := by
  obtain ⟨h0n, h0c, h0h, h0w⟩ := h0
  obtain ⟨_, h1c, _, _⟩ := h1
  have hC : 1 ≤ C := by omega
  have hP : 1 ≤ bottom0.shape 1 := by
    show 1 ≤ bottom0.channels
    rw [h0c]; exact Nat.mul_pos hC hK
  have hL : 1 ≤ bottom1.shape 1 := by
    show 1 ≤ bottom1.channels
    rw [h1c]; exact hC
  have hdiv : bottom0.shape 1 % bottom1.shape 1 = 0 := by
    show bottom0.channels % bottom1.channels = 0
    rw [h0c, h1c]; exact Nat.mul_mod_right C K
  have hq : bottom0.shape 1 / bottom1.shape 1 = K := by
    show bottom0.channels / bottom1.channels = K
    rw [h0c, h1c]; exact Nat.mul_div_cancel_left K hC
  refine ⟨_, accuracy_LayerSetUp_eq top_k 1 bottom0 bottom1 hP hL hdiv, ?_⟩
  rw [hq]
  have hcl : c < bottom1.shape 1 := by
    show c < bottom1.channels
    rw [h1c]; exact hc
  refine ⟨fun n => MultiClassAccuracyLayer.max_id
    { top_k_ := top_k, label_axis_ := 1, num_classes_ := K,
      num_classifiers_ := bottom1.shape 1 } bottom0 n c, ?_, ?_⟩
  · intro n _
    exact max_id_spec
      { top_k_ := top_k, label_axis_ := 1, num_classes_ := K,
        num_classifiers_ := bottom1.shape 1 } bottom0 h0h h0w hK n c
  · rw [Forward_cpu_apply _ bottom0 bottom1 top0 c hcl, h0n]
    rfl

/-- Claim C8. On a score slice of `K ≥ 1` classes the predicted class `max_id` is the
lowest index among those holding the largest score. Hence an example whose label is
a position holding the largest score with an equal score at a lower index is not
counted (the counters are unchanged), and one whose label is the lowest index
holding the largest score is counted (its classifier's counter grows by one). -/
theorem C8_accuracy_tie_break (layer : MultiClassAccuracyLayer) (bottom0 bottom1 : Blob α)
    (hh : bottom0.height = 1) (hw : bottom0.width = 1) (hK : 1 ≤ layer.num_classes_)
    (n c : Nat) :
    (MultiClassAccuracyLayer.max_id layer bottom0 n c < layer.num_classes_ ∧
      (∀ j, j < layer.num_classes_ →
        bottom0.data_at n (c * layer.num_classes_ + j) 0 0 ≤
          bottom0.data_at n (c * layer.num_classes_ +
            MultiClassAccuracyLayer.max_id layer bottom0 n c) 0 0) ∧
      (∀ j, j < layer.num_classes_ →
        bottom0.data_at n (c * layer.num_classes_ + j) 0 0 =
          bottom0.data_at n (c * layer.num_classes_ +
            MultiClassAccuracyLayer.max_id layer bottom0 n c) 0 0 →
        MultiClassAccuracyLayer.max_id layer bottom0 n c ≤ j)) ∧
    (∀ (l : Nat) (cp : Nat → α),
      MultiClassAccuracyLayer.label_value bottom1 n c = (l : Int) →
      (∃ j, j < l ∧ bottom0.data_at n (c * layer.num_classes_ + j) 0 0 =
        bottom0.data_at n (c * layer.num_classes_ + l) 0 0) →
      MultiClassAccuracyLayer.forward_step layer bottom0 bottom1 n c cp = cp) ∧
    (∀ (l : Nat) (cp : Nat → α),
      MultiClassAccuracyLayer.label_value bottom1 n c = (l : Int) →
      l < layer.num_classes_ →
      (∀ j, j < layer.num_classes_ →
        bottom0.data_at n (c * layer.num_classes_ + j) 0 0 ≤
          bottom0.data_at n (c * layer.num_classes_ + l) 0 0) →
      (∀ j, j < l → bottom0.data_at n (c * layer.num_classes_ + j) 0 0 ≠
        bottom0.data_at n (c * layer.num_classes_ + l) 0 0) →
      MultiClassAccuracyLayer.forward_step layer bottom0 bottom1 n c cp =
        Function.update cp c (cp c + 1)) := by
  obtain ⟨hlt, hmax, hfirst⟩ := max_id_spec layer bottom0 hh hw hK n c
  refine ⟨⟨hlt, hmax, ?_⟩, ?_, ?_⟩
  · intro j _ hj
    by_contra hcon
    exact absurd hj (ne_of_lt (hfirst j (not_le.mp hcon)))
  · intro l cp hl ⟨j, hjl, hj⟩
    unfold MultiClassAccuracyLayer.forward_step
    rw [if_neg]
    rw [hl]
    intro heq
    have heq2 : MultiClassAccuracyLayer.max_id layer bottom0 n c = l := by exact_mod_cast heq
    rw [← heq2] at hjl hj
    exact absurd hj (ne_of_lt (hfirst j hjl))
  · intro l cp hl hlK hlmax hlfirst
    unfold MultiClassAccuracyLayer.forward_step
    rw [if_pos]
    rw [hl]
    have heq : MultiClassAccuracyLayer.max_id layer bottom0 n c = l := by
      rcases Nat.lt_trichotomy (MultiClassAccuracyLayer.max_id layer bottom0 n c) l with h | h | h
      · exact absurd (le_antisymm (hmax l hlK) (hlmax _ hlt)).symm (hlfirst _ h)
      · exact h
      · exact absurd (hlmax _ hlt) (not_le.mpr (hfirst l h))
    rw [heq]

/-- Claim C9. For every layer state, every batch with `N ≥ 1` and every label blob
(labels outside the class range included), each output of `Forward_cpu` below
`num_classifiers_` is `k / N` for an integer `0 ≤ k ≤ N`, and lies in `[0, 1]`. -/
theorem C9_accuracy_in_unit_interval (layer : MultiClassAccuracyLayer)
    (bottom0 bottom1 top0 : Blob α) (hN : 1 ≤ bottom0.num)
    (c : Nat) (hc : c < layer.num_classifiers_) :
    ∃ k : Nat, k ≤ bottom0.num ∧
      (MultiClassAccuracyLayer.Forward_cpu layer bottom0 bottom1 top0).cpu_data c =
        (k : α) / (bottom0.num : α) ∧
      0 ≤ (MultiClassAccuracyLayer.Forward_cpu layer bottom0 bottom1 top0).cpu_data c ∧
      (MultiClassAccuracyLayer.Forward_cpu layer bottom0 bottom1 top0).cpu_data c ≤ 1 := by
  rw [Forward_cpu_apply layer bottom0 bottom1 top0 c hc]
  have hk : ((Finset.range bottom0.num).filter (fun n =>
      (MultiClassAccuracyLayer.max_id layer bottom0 n c : Int) =
        MultiClassAccuracyLayer.label_value bottom1 n c)).card ≤ bottom0.num := by
    calc _ ≤ (Finset.range bottom0.num).card := Finset.card_filter_le _ _
      _ = bottom0.num := Finset.card_range _
  have hNpos : (0 : α) < (bottom0.num : α) := by exact_mod_cast hN
  refine ⟨_, hk, rfl, ?_, ?_⟩
  · exact div_nonneg (Nat.cast_nonneg _) (le_of_lt hNpos)
  · rw [div_le_one hNpos]
    exact_mod_cast hk

/-- Claim C1 on two examples of two classifiers with two classes each, at the second
classifier. -/
theorem C1_accuracy_forward_counts_witness :
    ∃ layer, MultiClassAccuracyLayer.LayerSetUp 1 1
        (blob_of 2 4 [1, 2, 3, 3, 5, 1, 0, (0 : ℚ)]) (blob_of 2 2 [1, 0, 0, 1]) = .ok layer ∧
      ∃ idx : Nat → Nat,
        (∀ n, n < 2 → idx n < 2 ∧
          (∀ j, j < 2 →
            (blob_of 2 4 [1, 2, 3, 3, 5, 1, 0, (0 : ℚ)]).data_at n (1 * 2 + j) 0 0 ≤
              (blob_of 2 4 [1, 2, 3, 3, 5, 1, 0, (0 : ℚ)]).data_at n (1 * 2 + idx n) 0 0) ∧
          (∀ j, j < idx n →
            (blob_of 2 4 [1, 2, 3, 3, 5, 1, 0, (0 : ℚ)]).data_at n (1 * 2 + j) 0 0 <
              (blob_of 2 4 [1, 2, 3, 3, 5, 1, 0, (0 : ℚ)]).data_at n (1 * 2 + idx n) 0 0)) ∧
        (MultiClassAccuracyLayer.Forward_cpu layer (blob_of 2 4 [1, 2, 3, 3, 5, 1, 0, (0 : ℚ)])
            (blob_of 2 2 [1, 0, 0, 1]) (blob_of 2 1 [])).cpu_data 1 =
          (((Finset.range 2).filter (fun n =>
              (idx n : Int) =
                static_cast_int ((blob_of 2 2 [1, 0, 0, (1 : ℚ)]).data_at n 1 0 0))).card : ℚ) /
            ((2 : Nat) : ℚ) :=
  C1_accuracy_forward_counts 1 2 2 2 (blob_of 2 4 [1, 2, 3, 3, 5, 1, 0, (0 : ℚ)])
    (blob_of 2 2 [1, 0, 0, 1]) (blob_of 2 1 []) (by decide) (by decide)
    ⟨rfl, rfl, rfl, rfl⟩ ⟨rfl, rfl, rfl, rfl⟩ 1 (by decide)

/-- Claim C8 on the slice `[2, 5, 5]` with label `2`: the label is tied for the largest
score with the lower index `1`, and the example is not counted. -/
theorem C8_accuracy_tie_break_witness :
    MultiClassAccuracyLayer.forward_step
        { top_k_ := 1, label_axis_ := 1, num_classes_ := 3, num_classifiers_ := 1 }
        (blob_of 1 3 [2, 5, (5 : ℚ)]) (blob_of 1 1 [2]) 0 0 (fun _ => 0) = (fun _ => 0) :=
  (C8_accuracy_tie_break
      { top_k_ := 1, label_axis_ := 1, num_classes_ := 3, num_classifiers_ := 1 }
      (blob_of 1 3 [2, 5, (5 : ℚ)]) (blob_of 1 1 [2]) rfl rfl (by decide) 0 0).2.1 2 (fun _ => 0)
    (by simp [MultiClassAccuracyLayer.label_value, static_cast_int, Blob.data_at, blob_of,
          Blob.offset])
    ⟨1, by decide, by simp [Blob.data_at, blob_of, Blob.offset]⟩

/-- Claim C9 on two examples of two classifiers, at the second classifier, with the
label `7` outside the class range. -/
theorem C9_accuracy_in_unit_interval_witness :
    ∃ k : Nat, k ≤ 2 ∧
      (MultiClassAccuracyLayer.Forward_cpu
          { top_k_ := 1, label_axis_ := 1, num_classes_ := 2, num_classifiers_ := 2 }
          (blob_of 2 4 [1, 2, 3, 3, 5, 1, 0, (0 : ℚ)]) (blob_of 2 2 [1, 7, 0, 1])
          (blob_of 2 1 [])).cpu_data 1 = (k : ℚ) / ((2 : Nat) : ℚ) ∧
      0 ≤ (MultiClassAccuracyLayer.Forward_cpu
          { top_k_ := 1, label_axis_ := 1, num_classes_ := 2, num_classifiers_ := 2 }
          (blob_of 2 4 [1, 2, 3, 3, 5, 1, 0, (0 : ℚ)]) (blob_of 2 2 [1, 7, 0, 1])
          (blob_of 2 1 [])).cpu_data 1 ∧
      (MultiClassAccuracyLayer.Forward_cpu
          { top_k_ := 1, label_axis_ := 1, num_classes_ := 2, num_classifiers_ := 2 }
          (blob_of 2 4 [1, 2, 3, 3, 5, 1, 0, (0 : ℚ)]) (blob_of 2 2 [1, 7, 0, 1])
          (blob_of 2 1 [])).cpu_data 1 ≤ 1 :=
  C9_accuracy_in_unit_interval
    { top_k_ := 1, label_axis_ := 1, num_classes_ := 2, num_classifiers_ := 2 }
    (blob_of 2 4 [1, 2, 3, 3, 5, 1, 0, (0 : ℚ)]) (blob_of 2 2 [1, 7, 0, 1]) (blob_of 2 1 [])
    (by decide) 1 (by decide)

end Accuracy

section Reshape

variable {α : Type} [LinearOrderedField α] [FloorRing α]

end Reshape

section Loss

variable {α : Type} [LinearOrderedField α] [FloorRing α]

theorem sum_to_eq_sum (f : Nat → α) (k : Nat) :
    sum_to f k = ∑ i ∈ Finset.range k, f i := by
  induction k with
  | zero => rfl
  | succ k ih => rw [sum_to, ih, Finset.sum_range_succ]

/-- A sum over the `N * C` rows is the sum over the examples of the sums over their
classifiers, row `n * C + c` being classifier `c` of example `n`. -/
theorem sum_rows_eq_sum_examples (f : Nat → α) (N C : Nat) :
    ∑ r ∈ Finset.range (N * C), f r =
      ∑ n ∈ Finset.range N, ∑ c ∈ Finset.range C, f (n * C + c) := by
  induction N with
  | zero => simp
  | succ N ih =>
    rw [Nat.succ_mul, Finset.sum_range_add, ih, Finset.sum_range_succ]

theorem row_max_congr (x y : Nat → α) (start : Nat) (K : Nat)
    (h0 : x start = y start) (h : ∀ k, k < K → x (start + k) = y (start + k)) :
    row_max x start K = row_max y start K := by
  induction K with
  | zero => exact h0
  | succ K ih =>
    simp only [row_max]
    rw [ih (fun k hk => h k (Nat.lt_succ_of_lt hk)), h K (Nat.lt_succ_self K)]

/-- The normalised row depends only on the `K` scores of the row. -/
theorem softmax_prob_congr (exp : α → α) (x y : Nat → α) (start K j : Nat) (hj : j < K)
    (h : ∀ k, k < K → x (start + k) = y (start + k)) :
    softmax_prob exp x start K j = softmax_prob exp y start K j := by
  have h0 : x start = y start := by
    have := h 0 (by omega)
    simpa using this
  unfold softmax_prob
  rw [row_max_congr x y start K h0 h, h j hj, sum_to_eq_sum, sum_to_eq_sum]
  congr 1
  apply Finset.sum_congr rfl
  intro k hk
  rw [h k (Finset.mem_range.mp hk)]

/-- Setup (`LayerSetUp`, then `Reshape`) on predictions of shape `(N, C * K)` and
labels of shape `(N, C)` succeeds and yields a layer configured for `N`, `C`, `K`. -/
theorem loss_setup_configured (N C K : Nat) (bottom0 bottom1 : Blob α)
    (hC : 1 ≤ C) (hK : 1 ≤ K)
    (h0 : bottom0.num = N ∧ bottom0.channels = C * K ∧ bottom0.height = 1 ∧ bottom0.width = 1)
    (h1 : bottom1.num = N ∧ bottom1.channels = C ∧ bottom1.height = 1 ∧ bottom1.width = 1) :
    ∃ layer, (MultiSoftmaxWithLossLayer.LayerSetUp 1 bottom0 bottom1 >>=
        fun l => MultiSoftmaxWithLossLayer.Reshape l bottom0 bottom1) = .ok layer ∧
      MultiSoftmaxWithLossLayer.configured layer N C K := by
  obtain ⟨h0n, h0c, h0h, h0w⟩ := h0
  obtain ⟨h1n, h1c, h1h, h1w⟩ := h1
  have hP : 1 ≤ bottom0.shape 1 := by
    show 1 ≤ bottom0.channels
    rw [h0c]; exact Nat.mul_pos hC hK
  have hL : 1 ≤ bottom1.shape 1 := by
    show 1 ≤ bottom1.channels
    rw [h1c]; exact hC
  have hdiv : bottom0.shape 1 % bottom1.shape 1 = 0 := by
    show bottom0.channels % bottom1.channels = 0
    rw [h0c, h1c]; exact Nat.mul_mod_right C K
  have hq : bottom0.shape 1 / bottom1.shape 1 = K := by
    show bottom0.channels / bottom1.channels = K
    rw [h0c, h1c]; exact Nat.mul_div_cancel_left K hC
  have hl : bottom1.shape 1 = C := h1c
  have hcount : bottom0.count / K = bottom1.count := by
    simp only [Blob.count, h0n, h0c, h0h, h0w, h1n, h1c, h1h, h1w, Nat.mul_one]
    rw [← Nat.mul_assoc]
    exact Nat.mul_div_cancel _ hK
  rw [loss_LayerSetUp_eq 1 bottom0 bottom1 hP hL hdiv, hq, hl]
  simp only [bind, Except.bind, MultiSoftmaxWithLossLayer.Reshape, int_div_of_pos _ _ hK,
    hcount, ne_eq, not_true_eq_false, if_false, pure, Except.pure]
  refine ⟨_, rfl, rfl, rfl, ⟨?_, rfl, rfl, rfl⟩, ⟨?_, rfl, rfl, rfl⟩⟩
  · show bottom0.num * C = N * C
    rw [h0n]
  · show bottom0.num * C = N * C
    rw [h0n]

/-- On a buffer of height and width one, the read at row `r` and a non-negative signed
column `l` is the read at linear position `r * channels + l`. -/
theorem data_at_int_eq (b : Blob α) (hh : b.height = 1) (hw : b.width = 1) (r : Nat) (l : Int)
    (hl : 0 ≤ l) : (b.offset_int r l).toNat = r * b.channels + l.toNat := by
  simp only [Blob.offset_int, hh, hw, Nat.cast_one, mul_one, add_zero]
  have : ((r : Int) * (b.channels : Int)) = ((r * b.channels : Nat) : Int) := by push_cast; rfl
  rw [this]
  omega

theorem row_index_lt (N C K r j : Nat) (hr : r < N * C) (hj : j < K) :
    r * K + j < N * C * K := by
  have h1 : (r + 1) * K ≤ N * C * K := Nat.mul_le_mul_right K hr
  rw [Nat.succ_mul] at h1
  omega

theorem row_index_div (K r j : Nat) (hj : j < K) : (r * K + j) / K = r := by
  have hK : 0 < K := by omega
  rw [Nat.add_comm, Nat.add_mul_div_right _ _ hK, Nat.div_eq_of_lt hj, Nat.zero_add]

theorem row_index_mod (K r j : Nat) (hj : j < K) : (r * K + j) % K = j := by
  rw [Nat.add_comm, Nat.add_mul_mod_self_right, Nat.mod_eq_of_lt hj]

/-- `Forward_cpu` keeps the configuration and the buffer shapes. -/
theorem Forward_cpu_configured (exp log : α → α) (layer : MultiSoftmaxWithLossLayer α)
    (bottom0 bottom1 top0 : Blob α) (N C K : Nat)
    (hcfg : MultiSoftmaxWithLossLayer.configured layer N C K) :
    MultiSoftmaxWithLossLayer.configured
      (MultiSoftmaxWithLossLayer.Forward_cpu exp log layer bottom0 bottom1 top0).1 N C K :=
  hcfg

/-- After `Forward_cpu` on a configured layer, entry `j` of row `r` of `prob_` is the
softmax probability of entry `j` among the `K` scores of the packed predictions
that start at `r * K`. -/
theorem Forward_cpu_prob (exp log : α → α) (layer : MultiSoftmaxWithLossLayer α)
    (bottom0 bottom1 top0 : Blob α) (N C K : Nat)
    (hcfg : MultiSoftmaxWithLossLayer.configured layer N C K)
    (r j : Nat) (hr : r < N * C) (hj : j < K) :
    (MultiSoftmaxWithLossLayer.Forward_cpu exp log layer bottom0 bottom1 top0).1.prob_.cpu_data
        (r * K + j) = softmax_prob exp bottom0.cpu_data (r * K) K j := by
  obtain ⟨_, _, ⟨hn, hc, hh, hw⟩, _⟩ := hcfg
  have hcount : layer.single_softmax_bottom.count = N * C * K := by
    simp [Blob.count, hn, hc, hh, hw]
  simp only [MultiSoftmaxWithLossLayer.Forward_cpu, softmax_forward, Blob.count, hn, hc, hh, hw,
    Nat.mul_one, if_pos (row_index_lt N C K r j hr hj), row_index_div K r j hj,
    row_index_mod K r j hj]
  apply softmax_prob_congr exp _ _ (r * K) K j hj
  intro k hk
  simp only [caffe_copy, hcount, if_pos (row_index_lt N C K r k hr hk)]

theorem forward_loss_eq_sum (log : α → α) (prob bottom1 : Blob α) (m : Nat) :
    MultiSoftmaxWithLossLayer.forward_loss log prob bottom1 m =
      ∑ r ∈ Finset.range m,
        -log (max (prob.data_at_int r (MultiSoftmaxWithLossLayer.label_value bottom1 r))
          FLT_MIN) := by
  induction m with
  | zero => rfl
  | succ m ih =>
    rw [MultiSoftmaxWithLossLayer.forward_loss, ih, Finset.sum_range_succ, sub_eq_add_neg]

/-- The value `Forward_cpu` writes for a configured layer and labels in the class
range: the sum over the `N * C` rows of the negated logarithm of the clamped
probability at the row's label, divided by the batch size of the predictions. -/
theorem Forward_cpu_loss_rows (exp log : α → α) (layer : MultiSoftmaxWithLossLayer α)
    (bottom0 bottom1 top0 : Blob α) (N C K : Nat)
    (hcfg : MultiSoftmaxWithLossLayer.configured layer N C K)
    (hlab : ∀ r, r < N * C → 0 ≤ MultiSoftmaxWithLossLayer.label_value bottom1 r ∧
      MultiSoftmaxWithLossLayer.label_value bottom1 r < (K : Int)) :
    (MultiSoftmaxWithLossLayer.Forward_cpu exp log layer bottom0 bottom1 top0).2.cpu_data 0 =
      (∑ r ∈ Finset.range (N * C),
        -log (max (softmax_prob exp bottom0.cpu_data (r * K) K
          (MultiSoftmaxWithLossLayer.label_value bottom1 r).toNat) FLT_MIN)) /
        (bottom0.num : α) := by
  have hp := Forward_cpu_prob exp log layer bottom0 bottom1 top0 N C K hcfg
  obtain ⟨_, _, ⟨hn, _, _, _⟩, ⟨_, hpc, hph, hpw⟩⟩ := hcfg
  have hval : (MultiSoftmaxWithLossLayer.Forward_cpu exp log layer bottom0 bottom1
      top0).2.cpu_data 0 =
      MultiSoftmaxWithLossLayer.forward_loss log
        (MultiSoftmaxWithLossLayer.Forward_cpu exp log layer bottom0 bottom1 top0).1.prob_
        bottom1 (N * C) / (bottom0.num : α) := by
    simp only [MultiSoftmaxWithLossLayer.Forward_cpu, Function.update_same, hn]
  rw [hval, forward_loss_eq_sum]
  congr 1
  apply Finset.sum_congr rfl
  intro r hr
  have hr2 := Finset.mem_range.mp hr
  obtain ⟨hl0, hlK⟩ := hlab r hr2
  have hj : (MultiSoftmaxWithLossLayer.label_value bottom1 r).toNat < K := by omega
  have hoff := data_at_int_eq
    (MultiSoftmaxWithLossLayer.Forward_cpu exp log layer bottom0 bottom1 top0).1.prob_
    hph hpw r _ hl0
  have hpc2 : (MultiSoftmaxWithLossLayer.Forward_cpu exp log layer bottom0 bottom1
      top0).1.prob_.channels = K := hpc
  rw [hpc2] at hoff
  rw [Blob.data_at_int, hoff, hp r _ hr2 hj]

/-- Labels of shape `(N, C)`: the label of row `n * C + c` is `label[n, c]`, so labels
in the class range at every `(n, c)` are in the class range at every row. -/
theorem labels_flat (N C K : Nat) (bottom1 : Blob α)
    (h1 : bottom1.num = N ∧ bottom1.channels = C ∧ bottom1.height = 1 ∧ bottom1.width = 1)
    (hlab : ∀ n c, n < N → c < C →
      0 ≤ static_cast_int (bottom1.data_at n c 0 0) ∧
      static_cast_int (bottom1.data_at n c 0 0) < (K : Int)) :
    (∀ n c, MultiSoftmaxWithLossLayer.label_value bottom1 (n * C + c) =
      static_cast_int (bottom1.data_at n c 0 0)) ∧
    (∀ r, r < N * C → 0 ≤ MultiSoftmaxWithLossLayer.label_value bottom1 r ∧
      MultiSoftmaxWithLossLayer.label_value bottom1 r < (K : Int)) := by
  obtain ⟨_, h1c, h1h, h1w⟩ := h1
  have hflat : ∀ n c, MultiSoftmaxWithLossLayer.label_value bottom1 (n * C + c) =
      static_cast_int (bottom1.data_at n c 0 0) := by
    intro n c
    simp [MultiSoftmaxWithLossLayer.label_value, Blob.data_at, Blob.offset, h1c, h1h, h1w]
  refine ⟨hflat, ?_⟩
  intro r hr
  have hC : 0 < C := by
    rcases Nat.eq_zero_or_pos C with h | h
    · subst h; simp at hr
    · exact h
  have hdiv : r / C < N := Nat.div_lt_of_lt_mul (by rw [Nat.mul_comm]; exact hr)
  have hmod : r % C < C := Nat.mod_lt r hC
  have hr2 : r / C * C + r % C = r := by
    rw [Nat.mul_comm]; exact Nat.div_add_mod r C
  have := hlab (r / C) (r % C) hdiv hmod
  rw [← hflat, hr2] at this
  exact this

/-- Predictions of shape `(N, C * K)`: entry `j` of classifier `c` of example `n` is at
linear position `(n * C + c) * K + j`. -/
theorem offset_packed (N C K : Nat) (bottom0 : Blob α)
    (h0 : bottom0.num = N ∧ bottom0.channels = C * K ∧ bottom0.height = 1 ∧ bottom0.width = 1)
    (n c j : Nat) : bottom0.offset n (c * K + j) 0 0 = (n * C + c) * K + j := by
  obtain ⟨_, h0c, h0h, h0w⟩ := h0
  simp only [Blob.offset, h0c, h0h, h0w, Nat.mul_one, Nat.add_zero]
  ring

/-- Claim C2. For a batch of `N ≥ 1` examples with predictions of shape `(N, C * K)` and
labels of shape `(N, C)` in the class range, setup succeeds and `Forward_cpu` writes
the loss `(1 / N) * Σ_{n < N} Σ_{c < C} -log (max (softmax(prediction[n, c * K ..
(c + 1) * K))[label[n, c]]) FLT_MIN)`: the divisor is `N`, not `N * C`. -/
theorem C2_loss_forward_value (exp log : α → α) (N C K : Nat) (bottom0 bottom1 top0 : Blob α)
    (_hN : 1 ≤ N) (hC : 1 ≤ C) (hK : 1 ≤ K)
    (h0 : bottom0.num = N ∧ bottom0.channels = C * K ∧ bottom0.height = 1 ∧ bottom0.width = 1)
    (h1 : bottom1.num = N ∧ bottom1.channels = C ∧ bottom1.height = 1 ∧ bottom1.width = 1)
    (hlab : ∀ n c, n < N → c < C →
      0 ≤ static_cast_int (bottom1.data_at n c 0 0) ∧
      static_cast_int (bottom1.data_at n c 0 0) < (K : Int)) :
    ∃ layer, (MultiSoftmaxWithLossLayer.LayerSetUp 1 bottom0 bottom1 >>=
        fun l => MultiSoftmaxWithLossLayer.Reshape l bottom0 bottom1) = .ok layer ∧
      (MultiSoftmaxWithLossLayer.Forward_cpu exp log layer bottom0 bottom1 top0).2.cpu_data 0 =
        (1 / (N : α)) * ∑ n ∈ Finset.range N, ∑ c ∈ Finset.range C,
          -log (max (softmax_prob exp bottom0.cpu_data (bottom0.offset n (c * K) 0 0) K
            (static_cast_int (bottom1.data_at n c 0 0)).toNat) FLT_MIN) := by
  obtain ⟨layer, hset, hcfg⟩ := loss_setup_configured N C K bottom0 bottom1 hC hK h0 h1
  obtain ⟨hflat, hrows⟩ := labels_flat N C K bottom1 h1 hlab
  refine ⟨layer, hset, ?_⟩
  rw [Forward_cpu_loss_rows exp log layer bottom0 bottom1 top0 N C K hcfg hrows,
    sum_rows_eq_sum_examples, h0.1, div_eq_mul_one_div, mul_comm]
  congr 1
  apply Finset.sum_congr rfl
  intro n _
  apply Finset.sum_congr rfl
  intro c _
  have hoff := offset_packed N C K bottom0 h0 n c 0
  simp only [Nat.add_zero] at hoff
  rw [hflat, hoff]

theorem FLT_MIN_pos : (0 : α) < FLT_MIN := by
  unfold FLT_MIN
  positivity

theorem FLT_MIN_lt_one : (FLT_MIN : α) < 1 := by
  unfold FLT_MIN
  rw [div_lt_one (by positivity)]
  exact one_lt_pow₀ (by norm_num) (by norm_num)

/-- The denominator of a softmax row of at least one real score is positive. -/
theorem softmax_sum_pos (x : Nat → ℝ) (start K : Nat) (hK : 1 ≤ K) (m : ℝ) :
    0 < sum_to (fun k => Real.exp (x (start + k) - m)) K := by
  rw [sum_to_eq_sum]
  apply Finset.sum_pos
  · intro i _
    exact Real.exp_pos _
  · exact ⟨0, Finset.mem_range.mpr (by omega)⟩

/-- A real softmax probability is positive. -/
theorem softmax_prob_pos (x : Nat → ℝ) (start K j : Nat) (hK : 1 ≤ K) :
    0 < softmax_prob Real.exp x start K j := by
  unfold softmax_prob
  exact div_pos (Real.exp_pos _) (softmax_sum_pos x start K hK _)

/-- A real softmax probability of an entry of the row is at most one. -/
theorem softmax_prob_le_one (x : Nat → ℝ) (start K j : Nat) (hj : j < K) :
    softmax_prob Real.exp x start K j ≤ 1 := by
  unfold softmax_prob
  rw [div_le_one (softmax_sum_pos x start K (by omega) _), sum_to_eq_sum]
  exact Finset.single_le_sum (f := fun k => Real.exp (x (start + k) - row_max x start K))
    (fun i _ => le_of_lt (Real.exp_pos _)) (Finset.mem_range.mpr hj)

/-- Claim C10. For every input with `N ≥ 1` and all labels in the class range, the loss
written by `Forward_cpu`, computed over the reals with the real exponential and
logarithm, is non-negative. -/
theorem C10_loss_nonneg (N C K : Nat) (bottom0 bottom1 top0 : Blob ℝ)
    (_hN : 1 ≤ N) (hC : 1 ≤ C) (hK : 1 ≤ K)
    (h0 : bottom0.num = N ∧ bottom0.channels = C * K ∧ bottom0.height = 1 ∧ bottom0.width = 1)
    (h1 : bottom1.num = N ∧ bottom1.channels = C ∧ bottom1.height = 1 ∧ bottom1.width = 1)
    (hlab : ∀ n c, n < N → c < C →
      0 ≤ static_cast_int (bottom1.data_at n c 0 0) ∧
      static_cast_int (bottom1.data_at n c 0 0) < (K : Int)) :
    ∃ layer, (MultiSoftmaxWithLossLayer.LayerSetUp 1 bottom0 bottom1 >>=
        fun l => MultiSoftmaxWithLossLayer.Reshape l bottom0 bottom1) = .ok layer ∧
      0 ≤ (MultiSoftmaxWithLossLayer.Forward_cpu Real.exp Real.log layer bottom0 bottom1
        top0).2.cpu_data 0 := by
  obtain ⟨layer, hset, hcfg⟩ := loss_setup_configured N C K bottom0 bottom1 hC hK h0 h1
  obtain ⟨_, hrows⟩ := labels_flat N C K bottom1 h1 hlab
  refine ⟨layer, hset, ?_⟩
  rw [Forward_cpu_loss_rows Real.exp Real.log layer bottom0 bottom1 top0 N C K hcfg hrows]
  apply div_nonneg _ (Nat.cast_nonneg _)
  apply Finset.sum_nonneg
  intro r hr
  obtain ⟨hl0, hlK⟩ := hrows r (Finset.mem_range.mp hr)
  have hj : (MultiSoftmaxWithLossLayer.label_value bottom1 r).toNat < K := by omega
  rw [neg_nonneg]
  apply Real.log_nonpos
  · exact le_trans (le_of_lt FLT_MIN_pos) (le_max_right _ _)
  · exact max_le (softmax_prob_le_one _ _ _ _ hj) (le_of_lt FLT_MIN_lt_one)

/-- The first loop of `Backward_cpu` after `m` rows, on a buffer of `K ≥ 1` columns and
labels in the class range: one has been subtracted at the label position of each
of the first `m` rows, and nowhere else. -/
theorem backward_rows_apply (prob bottom1 : Blob α) (K : Nat) (hK : 1 ≤ K)
    (hpc : prob.channels = K) (hph : prob.height = 1) (hpw : prob.width = 1) (m : Nat)
    (hlab : ∀ r, r < m → 0 ≤ MultiSoftmaxWithLossLayer.label_value bottom1 r ∧
      MultiSoftmaxWithLossLayer.label_value bottom1 r < (K : Int)) (i : Nat) :
    MultiSoftmaxWithLossLayer.backward_rows prob bottom1 m i =
      prob.cpu_data i -
        (if i / K < m ∧ ((i % K : Nat) : Int) =
            MultiSoftmaxWithLossLayer.label_value bottom1 (i / K) then 1 else 0) := by
  induction m with
  | zero => simp [MultiSoftmaxWithLossLayer.backward_rows]
  | succ m ih =>
    have ih2 := ih (fun r hr => hlab r (Nat.lt_succ_of_lt hr))
    obtain ⟨hl0, hlK⟩ := hlab m (Nat.lt_succ_self m)
    have hoff := data_at_int_eq prob hph hpw m _ hl0
    rw [hpc] at hoff
    have hlt : (MultiSoftmaxWithLossLayer.label_value bottom1 m).toNat < K := by omega
    have hcast : (((MultiSoftmaxWithLossLayer.label_value bottom1 m).toNat : Nat) : Int) =
        MultiSoftmaxWithLossLayer.label_value bottom1 m := Int.toNat_of_nonneg hl0
    simp only [MultiSoftmaxWithLossLayer.backward_rows, hoff]
    by_cases hi : i = m * K + (MultiSoftmaxWithLossLayer.label_value bottom1 m).toNat
    · subst hi
      rw [Function.update_same, ih2, row_index_div K m _ hlt, row_index_mod K m _ hlt]
      rw [if_neg (fun h => absurd h.1 (lt_irrefl m)), if_pos ⟨Nat.lt_succ_self m, hcast⟩]
      ring
    · rw [Function.update_noteq hi, ih2]
      congr 1
      have hiff : (i / K < m + 1 ∧ ((i % K : Nat) : Int) =
            MultiSoftmaxWithLossLayer.label_value bottom1 (i / K)) ↔
          (i / K < m ∧ ((i % K : Nat) : Int) =
            MultiSoftmaxWithLossLayer.label_value bottom1 (i / K)) := by
        constructor
        · rintro ⟨h1, h2⟩
          refine ⟨?_, h2⟩
          rcases Nat.lt_succ_iff_lt_or_eq.mp h1 with h | h
          · exact h
          · exfalso
            apply hi
            rw [h] at h2
            have h3 : i % K = (MultiSoftmaxWithLossLayer.label_value bottom1 m).toNat := by
              omega
            rw [← h3, ← h, Nat.mul_comm]
            exact (Nat.div_add_mod i K).symm
        · rintro ⟨h1, h2⟩
          exact ⟨Nat.lt_succ_of_lt h1, h2⟩
      simp only [hiff]

/-- `Backward_cpu` with only the prediction gradient requested, on a configured layer
whose `prob_` holds `p`: it succeeds, and the gradient it writes at entry `j` of
row `r` is `(w / num) * (p[r, j] - [j = label[r]])`, with `w` the upstream weight. -/
theorem Backward_cpu_rows (layer : MultiSoftmaxWithLossLayer α) (top0 bottom0 bottom1 : Blob α)
    (N C K : Nat) (hK : 1 ≤ K)
    (hcfg : MultiSoftmaxWithLossLayer.configured layer N C K)
    (h0 : bottom0.num = N ∧ bottom0.channels = C * K ∧ bottom0.height = 1 ∧ bottom0.width = 1)
    (hlab : ∀ r, r < N * C → 0 ≤ MultiSoftmaxWithLossLayer.label_value bottom1 r ∧
      MultiSoftmaxWithLossLayer.label_value bottom1 r < (K : Int)) :
    ∃ layer1 bottom01,
      MultiSoftmaxWithLossLayer.Backward_cpu layer top0 true false bottom0 bottom1 =
        .ok (layer1, bottom01) ∧
      ∀ r j, r < N * C → j < K →
        bottom01.cpu_diff (r * K + j) =
          (top0.cpu_diff 0 / (N : α)) *
            (layer.prob_.cpu_data (r * K + j) -
              (if (j : Int) = MultiSoftmaxWithLossLayer.label_value bottom1 r then 1 else 0)) := by
  obtain ⟨_, _, _, ⟨hpn, hpc, hph, hpw⟩⟩ := hcfg
  obtain ⟨h0n, h0c, h0h, h0w⟩ := h0
  have hcount : bottom0.count = N * C * K := by
    simp [Blob.count, h0n, h0c, h0h, h0w, Nat.mul_assoc]
  refine ⟨_, _, rfl, ?_⟩
  intro r j hr hj
  have hlt := row_index_lt N C K r j hr hj
  simp only [caffe_scal, caffe_copy, hcount, if_pos hlt, hpn, h0n]
  rw [backward_rows_apply layer.prob_ bottom1 K hK hpc hph hpw (N * C) hlab,
    row_index_div K r j hj, row_index_mod K r j hj]
  simp only [hr, true_and]

/-- Claim C3. `Backward_cpu` after `Forward_cpu`, with the gradient for the predictions
requested and upstream weight `w`: it succeeds, and for every `n < N`, `c < C`,
`j < K` the gradient written at `[n, c * K + j]` is
`(w / N) * (softmax(prediction[n, c * K .. (c + 1) * K))[j] - [j = label[n, c]])`. -/
theorem C3_loss_backward_value (exp log : α → α) (N C K : Nat)
    (bottom0 bottom1 top0 : Blob α)
    (_hN : 1 ≤ N) (hC : 1 ≤ C) (hK : 1 ≤ K)
    (h0 : bottom0.num = N ∧ bottom0.channels = C * K ∧ bottom0.height = 1 ∧ bottom0.width = 1)
    (h1 : bottom1.num = N ∧ bottom1.channels = C ∧ bottom1.height = 1 ∧ bottom1.width = 1)
    (hlab : ∀ n c, n < N → c < C →
      0 ≤ static_cast_int (bottom1.data_at n c 0 0) ∧
      static_cast_int (bottom1.data_at n c 0 0) < (K : Int)) :
    ∃ layer, (MultiSoftmaxWithLossLayer.LayerSetUp 1 bottom0 bottom1 >>=
        fun l => MultiSoftmaxWithLossLayer.Reshape l bottom0 bottom1) = .ok layer ∧
      ∃ layer1 bottom01,
        MultiSoftmaxWithLossLayer.Backward_cpu
          (MultiSoftmaxWithLossLayer.Forward_cpu exp log layer bottom0 bottom1 top0).1
          (MultiSoftmaxWithLossLayer.Forward_cpu exp log layer bottom0 bottom1 top0).2
          true false bottom0 bottom1 = .ok (layer1, bottom01) ∧
        ∀ n c j, n < N → c < C → j < K →
          bottom01.cpu_diff (bottom0.offset n (c * K + j) 0 0) =
            (top0.cpu_diff 0 / (N : α)) *
              (softmax_prob exp bottom0.cpu_data (bottom0.offset n (c * K) 0 0) K j -
                (if (j : Int) = static_cast_int (bottom1.data_at n c 0 0) then 1 else 0)) := by
  obtain ⟨layer, hset, hcfg⟩ := loss_setup_configured N C K bottom0 bottom1 hC hK h0 h1
  obtain ⟨hflat, hrows⟩ := labels_flat N C K bottom1 h1 hlab
  refine ⟨layer, hset, ?_⟩
  obtain ⟨layer1, bottom01, hback, hgrad⟩ := Backward_cpu_rows
    (MultiSoftmaxWithLossLayer.Forward_cpu exp log layer bottom0 bottom1 top0).1
    (MultiSoftmaxWithLossLayer.Forward_cpu exp log layer bottom0 bottom1 top0).2
    bottom0 bottom1 N C K hK
    (Forward_cpu_configured exp log layer bottom0 bottom1 top0 N C K hcfg) h0 hrows
  refine ⟨layer1, bottom01, hback, ?_⟩
  intro n c j hn hc hj
  have hr : n * C + c < N * C := by
    have h1 : (n + 1) * C ≤ N * C := Nat.mul_le_mul_right C hn
    rw [Nat.succ_mul] at h1
    omega
  have hoff := offset_packed N C K bottom0 h0 n c j
  have hoff0 := offset_packed N C K bottom0 h0 n c 0
  simp only [Nat.add_zero] at hoff0
  rw [hoff, hoff0, hgrad (n * C + c) j hr hj,
    Forward_cpu_prob exp log layer bottom0 bottom1 top0 N C K hcfg _ _ hr hj, hflat]
  rfl

end Loss

section Gradient

open Filter Topology

/-- Over the reals the subtraction of the row maximum cancels: a softmax probability
is the exponential of its score divided by the sum of the exponentials of the row. -/
theorem softmax_prob_eq_exp_div (x : Nat → ℝ) (start K j : Nat) :
    softmax_prob Real.exp x start K j =
      Real.exp (x (start + j)) / ∑ k ∈ Finset.range K, Real.exp (x (start + k)) := by
  unfold softmax_prob
  rw [sum_to_eq_sum]
  simp only [Real.exp_sub]
  rw [← Finset.sum_div, div_div_div_cancel_right₀ (ne_of_gt (Real.exp_pos _))]

/-- A real softmax probability is the exponential of the log-probability
`x[j] - log (Σ_k exp x[k])`. -/
theorem softmax_prob_eq_exp_sub_log (x : Nat → ℝ) (start K j : Nat) (hK : 1 ≤ K) :
    softmax_prob Real.exp x start K j =
      Real.exp (x (start + j) -
        Real.log (∑ k ∈ Finset.range K, Real.exp (x (start + k)))) := by
  have hS : 0 < ∑ k ∈ Finset.range K, Real.exp (x (start + k)) :=
    Finset.sum_pos (fun i _ => Real.exp_pos _) ⟨0, Finset.mem_range.mpr (by omega)⟩
  rw [softmax_prob_eq_exp_div, Real.exp_sub, Real.exp_log hS]

/-- The derivative of one row's loss term along a differentiable family of score
buffers `X t`, at a point where the label's probability exceeds the floor `FLT_MIN`:
`Σ_k softmax[k] * X' k - X' l`. -/
theorem row_loss_hasDerivAt (X : ℝ → Nat → ℝ) (X1 : Nat → ℝ) (t0 : ℝ) (start K l : Nat)
    (hK : 1 ≤ K)
    (hX : ∀ k, HasDerivAt (fun t => X t (start + k)) (X1 k) t0)
    (hfloor : FLT_MIN < softmax_prob Real.exp (X t0) start K l) :
    HasDerivAt (fun t => -Real.log (max (softmax_prob Real.exp (X t) start K l) FLT_MIN))
      ((∑ k ∈ Finset.range K, softmax_prob Real.exp (X t0) start K k * X1 k) - X1 l) t0 := by
  have hS : ∀ t, 0 < ∑ k ∈ Finset.range K, Real.exp (X t (start + k)) := fun t =>
    Finset.sum_pos (fun i _ => Real.exp_pos _) ⟨0, Finset.mem_range.mpr (by omega)⟩
  -- the log-probability of the label and its derivative
  have hsum : HasDerivAt (fun t => ∑ k ∈ Finset.range K, Real.exp (X t (start + k)))
      (∑ k ∈ Finset.range K, Real.exp (X t0 (start + k)) * X1 k) t0 :=
    HasDerivAt.sum (fun k _ => (hX k).exp)
  have hg : HasDerivAt
      (fun t => X t (start + l) -
        Real.log (∑ k ∈ Finset.range K, Real.exp (X t (start + k))))
      (X1 l - (∑ k ∈ Finset.range K, Real.exp (X t0 (start + k)) * X1 k) /
        (∑ k ∈ Finset.range K, Real.exp (X t0 (start + k)))) t0 :=
    (hX l).sub (hsum.log (ne_of_gt (hS t0)))
  -- near `t0` the probability stays above the floor
  have hcont : ContinuousAt (fun t => Real.exp (X t (start + l) -
      Real.log (∑ k ∈ Finset.range K, Real.exp (X t (start + k))))) t0 :=
    Real.continuous_exp.continuousAt.comp hg.continuousAt
  have hfloor2 : FLT_MIN < Real.exp (X t0 (start + l) -
      Real.log (∑ k ∈ Finset.range K, Real.exp (X t0 (start + k)))) := by
    rw [← softmax_prob_eq_exp_sub_log _ _ _ _ hK]; exact hfloor
  have hev : ∀ᶠ t in 𝓝 t0, FLT_MIN < Real.exp (X t (start + l) -
      Real.log (∑ k ∈ Finset.range K, Real.exp (X t (start + k)))) :=
    hcont.eventually (lt_mem_nhds hfloor2)
  have heq : (fun t => -Real.log (max (softmax_prob Real.exp (X t) start K l) FLT_MIN))
      =ᶠ[𝓝 t0] (fun t => -(X t (start + l) -
        Real.log (∑ k ∈ Finset.range K, Real.exp (X t (start + k))))) := by
    filter_upwards [hev] with t ht
    rw [softmax_prob_eq_exp_sub_log _ _ _ _ hK, max_eq_left (le_of_lt ht), Real.log_exp]
  have hd := hg.neg.congr_of_eventuallyEq heq
  convert hd using 1
  rw [neg_sub, Finset.sum_div]
  congr 1
  apply Finset.sum_congr rfl
  intro k _
  rw [softmax_prob_eq_exp_div]
  ring

/-- Varying the score at position `i`: the entry at position `p` has derivative one
when `p = i` and zero otherwise. -/
theorem update_hasDerivAt (x : Nat → ℝ) (i p : Nat) (t0 : ℝ) :
    HasDerivAt (fun t => Function.update x i t p) (if p = i then 1 else 0) t0 := by
  by_cases h : p = i
  · subst h
    simp only [Function.update_same, if_true]
    exact hasDerivAt_id t0
  · simp only [Function.update_noteq h, if_neg h]
    exact hasDerivAt_const t0 _

theorem row_index_eq_iff (K r r0 k j : Nat) (hk : k < K) (hj : j < K) :
    r * K + k = r0 * K + j ↔ r = r0 ∧ k = j := by
  constructor
  · intro h
    have h1 := congrArg (· / K) h
    have h2 := congrArg (· % K) h
    simp only [row_index_div K _ _ hk, row_index_div K _ _ hj, row_index_mod K _ _ hk,
      row_index_mod K _ _ hj] at h1 h2
    exact ⟨h1, h2⟩
  · rintro ⟨rfl, rfl⟩
    rfl

/-- The partial derivative of the loss written by `Forward_cpu` with respect to the
score at entry `j` of row `r0`, for a configured layer, labels in the class range
and the label probability of row `r0` above the floor `FLT_MIN`:
`(softmax(row r0)[j] - [j = label[r0]]) / N`. The terms of the other rows do not
depend on that score. -/
theorem Forward_cpu_hasDerivAt (layer : MultiSoftmaxWithLossLayer ℝ)
    (bottom0 bottom1 top0 : Blob ℝ) (N C K : Nat) (hK : 1 ≤ K)
    (hcfg : MultiSoftmaxWithLossLayer.configured layer N C K) (h0n : bottom0.num = N)
    (hlab : ∀ r, r < N * C → 0 ≤ MultiSoftmaxWithLossLayer.label_value bottom1 r ∧
      MultiSoftmaxWithLossLayer.label_value bottom1 r < (K : Int))
    (r0 j : Nat) (hr0 : r0 < N * C) (hj : j < K)
    (hfloor : FLT_MIN < softmax_prob Real.exp bottom0.cpu_data (r0 * K) K
      (MultiSoftmaxWithLossLayer.label_value bottom1 r0).toNat) :
    HasDerivAt
      (fun t => (MultiSoftmaxWithLossLayer.Forward_cpu Real.exp Real.log layer
        (bottom0.set_data (r0 * K + j) t) bottom1 top0).2.cpu_data 0)
      ((softmax_prob Real.exp bottom0.cpu_data (r0 * K) K j -
        (if (j : Int) = MultiSoftmaxWithLossLayer.label_value bottom1 r0 then 1 else 0)) /
          (N : ℝ))
      (bottom0.cpu_data (r0 * K + j)) := by
  have hF : ∀ t, (MultiSoftmaxWithLossLayer.Forward_cpu Real.exp Real.log layer
      (bottom0.set_data (r0 * K + j) t) bottom1 top0).2.cpu_data 0 =
      (∑ r ∈ Finset.range (N * C),
        -Real.log (max (softmax_prob Real.exp (Function.update bottom0.cpu_data (r0 * K + j) t)
          (r * K) K (MultiSoftmaxWithLossLayer.label_value bottom1 r).toNat) FLT_MIN)) /
        (N : ℝ) := by
    intro t
    rw [Forward_cpu_loss_rows Real.exp Real.log layer _ bottom1 top0 N C K hcfg hlab]
    show _ / (bottom0.num : ℝ) = _
    rw [h0n]
    rfl
  simp only [hF]
  have hl0 := hlab r0 hr0
  have hlK : (MultiSoftmaxWithLossLayer.label_value bottom1 r0).toNat < K := by omega
  have hrow : ∀ r ∈ Finset.range (N * C), HasDerivAt
      (fun t => -Real.log (max (softmax_prob Real.exp
        (Function.update bottom0.cpu_data (r0 * K + j) t) (r * K) K
        (MultiSoftmaxWithLossLayer.label_value bottom1 r).toNat) FLT_MIN))
      (if r = r0 then
        softmax_prob Real.exp bottom0.cpu_data (r0 * K) K j -
          (if (j : Int) = MultiSoftmaxWithLossLayer.label_value bottom1 r0 then 1 else 0)
      else 0)
      (bottom0.cpu_data (r0 * K + j)) := by
    intro r hr
    by_cases hrr : r = r0
    · -- the row of the varied score
      subst hrr
      rw [if_pos rfl]
      have h := row_loss_hasDerivAt
        (fun t => Function.update bottom0.cpu_data (r * K + j) t)
        (fun k => if r * K + k = r * K + j then 1 else 0)
        (bottom0.cpu_data (r * K + j)) (r * K) K
        (MultiSoftmaxWithLossLayer.label_value bottom1 r).toNat hK
        (fun k => update_hasDerivAt bottom0.cpu_data (r * K + j) (r * K + k) _)
        (by simp only [Function.update_eq_self]; exact hfloor)
      simp only [Function.update_eq_self] at h
      convert h using 1
      congr 1
      · rw [Finset.sum_eq_single j]
        · simp
        · intro k _ hkj
          rw [if_neg, mul_zero]
          intro h
          exact hkj (Nat.add_left_cancel h)
        · intro h
          exact absurd (Finset.mem_range.mpr hj) h
      · by_cases hjl : (j : Int) = MultiSoftmaxWithLossLayer.label_value bottom1 r
        · rw [if_pos hjl, if_pos]
          congr 1
          omega
        · rw [if_neg hjl, if_neg]
          intro h
          apply hjl
          have := Nat.add_left_cancel h
          omega
    · -- another row: its scores, hence its term, do not change
      rw [if_neg hrr]
      have hlr := hlab r (Finset.mem_range.mp hr)
      have hlrK : (MultiSoftmaxWithLossLayer.label_value bottom1 r).toNat < K := by omega
      have hsame : ∀ t, softmax_prob Real.exp
          (Function.update bottom0.cpu_data (r0 * K + j) t) (r * K) K
          (MultiSoftmaxWithLossLayer.label_value bottom1 r).toNat =
          softmax_prob Real.exp bottom0.cpu_data (r * K) K
            (MultiSoftmaxWithLossLayer.label_value bottom1 r).toNat := by
        intro t
        apply softmax_prob_congr Real.exp _ _ (r * K) K _ hlrK
        intro k hk
        apply Function.update_noteq
        intro h
        exact hrr ((row_index_eq_iff K r r0 k j hk hj).mp h).1
      simp only [hsame]
      exact hasDerivAt_const _ _
  convert (HasDerivAt.sum hrow).div_const (N : ℝ) using 1
  congr 1
  rw [Finset.sum_ite_eq', if_pos (Finset.mem_range.mpr hr0)]

/-- Claim C4, amended. For every input with `N ≥ 1` and all labels in the class range,
and for every prediction entry whose own (example, classifier) row has the softmax
probability of its label above the floor `FLT_MIN`, the loss written by
`Forward_cpu`, as a real function of that entry with all else fixed, is
differentiable there and the gradient `Backward_cpu` writes for the entry is `w`
times its derivative, `w` the upstream weight. Nothing is required of the other
rows. -/
theorem C4_gradient_exact_above_floor (N C K : Nat) (bottom0 bottom1 top0 : Blob ℝ)
    (_hN : 1 ≤ N) (hC : 1 ≤ C) (hK : 1 ≤ K)
    (h0 : bottom0.num = N ∧ bottom0.channels = C * K ∧ bottom0.height = 1 ∧ bottom0.width = 1)
    (h1 : bottom1.num = N ∧ bottom1.channels = C ∧ bottom1.height = 1 ∧ bottom1.width = 1)
    (hlab : ∀ n c, n < N → c < C →
      0 ≤ static_cast_int (bottom1.data_at n c 0 0) ∧
      static_cast_int (bottom1.data_at n c 0 0) < (K : Int)) :
    ∃ layer, (MultiSoftmaxWithLossLayer.LayerSetUp 1 bottom0 bottom1 >>=
        fun l => MultiSoftmaxWithLossLayer.Reshape l bottom0 bottom1) = .ok layer ∧
      ∃ layer1 bottom01,
        MultiSoftmaxWithLossLayer.Backward_cpu
          (MultiSoftmaxWithLossLayer.Forward_cpu Real.exp Real.log layer bottom0 bottom1 top0).1
          (MultiSoftmaxWithLossLayer.Forward_cpu Real.exp Real.log layer bottom0 bottom1 top0).2
          true false bottom0 bottom1 = .ok (layer1, bottom01) ∧
        ∀ n c j, n < N → c < C → j < K →
          FLT_MIN < softmax_prob Real.exp bottom0.cpu_data (bottom0.offset n (c * K) 0 0) K
            (static_cast_int (bottom1.data_at n c 0 0)).toNat →
          ∃ d, HasDerivAt
              (fun t => (MultiSoftmaxWithLossLayer.Forward_cpu Real.exp Real.log layer
                (bottom0.set_data (bottom0.offset n (c * K + j) 0 0) t) bottom1
                top0).2.cpu_data 0)
              d (bottom0.cpu_data (bottom0.offset n (c * K + j) 0 0)) ∧
            bottom01.cpu_diff (bottom0.offset n (c * K + j) 0 0) = top0.cpu_diff 0 * d := by
  obtain ⟨layer, hset, hcfg⟩ := loss_setup_configured N C K bottom0 bottom1 hC hK h0 h1
  obtain ⟨hflat, hrows⟩ := labels_flat N C K bottom1 h1 hlab
  refine ⟨layer, hset, ?_⟩
  obtain ⟨layer1, bottom01, hback, hgrad⟩ := Backward_cpu_rows
    (MultiSoftmaxWithLossLayer.Forward_cpu Real.exp Real.log layer bottom0 bottom1 top0).1
    (MultiSoftmaxWithLossLayer.Forward_cpu Real.exp Real.log layer bottom0 bottom1 top0).2
    bottom0 bottom1 N C K hK
    (Forward_cpu_configured Real.exp Real.log layer bottom0 bottom1 top0 N C K hcfg) h0 hrows
  refine ⟨layer1, bottom01, hback, ?_⟩
  intro n c j hn hc hj hfloor
  have hr : n * C + c < N * C := by
    have h1 : (n + 1) * C ≤ N * C := Nat.mul_le_mul_right C hn
    rw [Nat.succ_mul] at h1
    omega
  have hoff := offset_packed N C K bottom0 h0 n c j
  have hoff0 := offset_packed N C K bottom0 h0 n c 0
  simp only [Nat.add_zero] at hoff0
  rw [hoff0, ← hflat] at hfloor
  rw [hoff]
  refine ⟨_, Forward_cpu_hasDerivAt layer bottom0 bottom1 top0 N C K hK hcfg h0.1 hrows
    (n * C + c) j hr hj hfloor, ?_⟩
  rw [hgrad (n * C + c) j hr hj,
    Forward_cpu_prob Real.exp Real.log layer bottom0 bottom1 top0 N C K hcfg _ _ hr hj]
  show top0.cpu_diff 0 / (N : ℝ) * _ = _
  ring

theorem exp_neg_126_le_FLT_MIN : Real.exp (-126) ≤ (FLT_MIN : ℝ) := by
  have h2 : (2 : ℝ) ≤ Real.exp 1 := by
    have := Real.add_one_le_exp (1 : ℝ)
    linarith
  have h126 : (2 : ℝ) ^ 126 ≤ Real.exp 126 := by
    have h : Real.exp 126 = Real.exp 1 ^ 126 := by
      rw [← Real.exp_nat_mul]; norm_num
    rw [h]
    exact pow_le_pow_left₀ (by norm_num) h2 126
  unfold FLT_MIN
  rw [Real.exp_neg, ← one_div]
  exact one_div_le_one_div_of_le (by positivity) h126

/-- With the two scores `t` and `200` and `t < 1`, the softmax probability of the first
class is at most the floor `FLT_MIN`. -/
theorem softmax_below_floor (x : Nat → ℝ) (hx1 : x 1 = 200) (hx0 : x 0 < 1) :
    softmax_prob Real.exp x 0 2 0 ≤ FLT_MIN := by
  rw [softmax_prob_eq_exp_div]
  simp only [Finset.sum_range_succ, Finset.range_zero, Finset.sum_empty, zero_add, hx1]
  have h1 : Real.exp (x 0) / (Real.exp (x 0) + Real.exp 200) ≤
      Real.exp (x 0) / Real.exp 200 :=
    div_le_div_of_nonneg_left (le_of_lt (Real.exp_pos _)) (Real.exp_pos _)
      (le_add_of_nonneg_left (le_of_lt (Real.exp_pos _)))
  have h2 : Real.exp (x 0) / Real.exp 200 = Real.exp (x 0 - 200) := (Real.exp_sub _ _).symm
  have h3 : Real.exp (x 0 - 200) ≤ Real.exp (-126) := Real.exp_le_exp.mpr (by linarith)
  linarith [exp_neg_126_le_FLT_MIN]

/-- Claim C4, counterexample. One example, one classifier, two classes, scores
`(0, 200)`, label `0`, upstream weight `1`: the softmax probability of the label is
below the floor `FLT_MIN`, so the loss of `Forward_cpu` is constant in the first score
near `0` and its derivative there is `0`, while `Backward_cpu` writes
`softmax[0] - 1 ≠ 0` for that score. -/
theorem C4_gradient_exact_counterexample :
    ∃ layer layer1 bottom01,
      (MultiSoftmaxWithLossLayer.LayerSetUp 1 (blob_of 1 2 [(0 : ℝ), 200]) (blob_of 1 1 [0]) >>=
        fun l => MultiSoftmaxWithLossLayer.Reshape l (blob_of 1 2 [(0 : ℝ), 200])
          (blob_of 1 1 [0])) = .ok layer ∧
      MultiSoftmaxWithLossLayer.Backward_cpu
        (MultiSoftmaxWithLossLayer.Forward_cpu Real.exp Real.log layer
          (blob_of 1 2 [(0 : ℝ), 200]) (blob_of 1 1 [0]) (top_with_weight 1)).1
        (MultiSoftmaxWithLossLayer.Forward_cpu Real.exp Real.log layer
          (blob_of 1 2 [(0 : ℝ), 200]) (blob_of 1 1 [0]) (top_with_weight 1)).2
        true false (blob_of 1 2 [(0 : ℝ), 200]) (blob_of 1 1 [0]) = .ok (layer1, bottom01) ∧
      deriv (fun t => (MultiSoftmaxWithLossLayer.Forward_cpu Real.exp Real.log layer
          ((blob_of 1 2 [(0 : ℝ), 200]).set_data 0 t) (blob_of 1 1 [0])
          (top_with_weight 1)).2.cpu_data 0) 0 = 0 ∧
      bottom01.cpu_diff 0 ≠ 1 * deriv (fun t =>
        (MultiSoftmaxWithLossLayer.Forward_cpu Real.exp Real.log layer
          ((blob_of 1 2 [(0 : ℝ), 200]).set_data 0 t) (blob_of 1 1 [0])
          (top_with_weight 1)).2.cpu_data 0) 0 := by
  have hlab : ∀ r, r < 1 * 1 →
      0 ≤ MultiSoftmaxWithLossLayer.label_value (blob_of 1 1 [(0 : ℝ)]) r ∧
      MultiSoftmaxWithLossLayer.label_value (blob_of 1 1 [(0 : ℝ)]) r < ((2 : Nat) : Int) := by
    intro r hr
    have hr0 : r = 0 := by omega
    subst hr0
    simp [MultiSoftmaxWithLossLayer.label_value, static_cast_int, blob_of]
  have hl0 : MultiSoftmaxWithLossLayer.label_value (blob_of 1 1 [(0 : ℝ)]) 0 = 0 := by
    simp [MultiSoftmaxWithLossLayer.label_value, static_cast_int, blob_of]
  obtain ⟨layer, hset, hcfg⟩ := loss_setup_configured 1 1 2 (blob_of 1 2 [(0 : ℝ), 200])
    (blob_of 1 1 [0]) (by norm_num) (by norm_num) ⟨rfl, rfl, rfl, rfl⟩ ⟨rfl, rfl, rfl, rfl⟩
  obtain ⟨layer1, bottom01, hback, hgrad⟩ := Backward_cpu_rows
    (MultiSoftmaxWithLossLayer.Forward_cpu Real.exp Real.log layer
      (blob_of 1 2 [(0 : ℝ), 200]) (blob_of 1 1 [0]) (top_with_weight 1)).1
    (MultiSoftmaxWithLossLayer.Forward_cpu Real.exp Real.log layer
      (blob_of 1 2 [(0 : ℝ), 200]) (blob_of 1 1 [0]) (top_with_weight 1)).2
    (blob_of 1 2 [(0 : ℝ), 200]) (blob_of 1 1 [0]) 1 1 2 (by norm_num)
    (Forward_cpu_configured Real.exp Real.log layer _ _ _ 1 1 2 hcfg)
    ⟨rfl, rfl, rfl, rfl⟩ hlab
  -- the loss is constant in the first score on `t < 1`
  have hconst : ∀ t : ℝ, t < 1 →
      (MultiSoftmaxWithLossLayer.Forward_cpu Real.exp Real.log layer
        ((blob_of 1 2 [(0 : ℝ), 200]).set_data 0 t) (blob_of 1 1 [0])
        (top_with_weight 1)).2.cpu_data 0 = -Real.log FLT_MIN / ((1 : Nat) : ℝ) := by
    intro t ht
    rw [Forward_cpu_loss_rows Real.exp Real.log layer _ (blob_of 1 1 [(0 : ℝ)]) _ 1 1 2 hcfg hlab]
    simp only [Nat.mul_one, Finset.sum_range_one, Nat.zero_mul, hl0, Int.toNat_zero]
    rw [max_eq_right]
    · rfl
    · apply softmax_below_floor
      · simp [Blob.set_data, blob_of]
      · simpa [Blob.set_data, blob_of] using ht
  have hderiv : deriv (fun t => (MultiSoftmaxWithLossLayer.Forward_cpu Real.exp Real.log layer
      ((blob_of 1 2 [(0 : ℝ), 200]).set_data 0 t) (blob_of 1 1 [0])
      (top_with_weight 1)).2.cpu_data 0) 0 = 0 := by
    apply HasDerivAt.deriv
    apply (hasDerivAt_const (0 : ℝ) (-Real.log FLT_MIN / ((1 : Nat) : ℝ))).congr_of_eventuallyEq
    filter_upwards [Iio_mem_nhds (show (0 : ℝ) < 1 by norm_num)] with t ht
    exact hconst t ht
  refine ⟨layer, layer1, bottom01, hset, hback, hderiv, ?_⟩
  rw [hderiv, mul_zero]
  have hg := hgrad 0 0 (by norm_num) (by norm_num)
  simp only [Nat.zero_mul, Nat.add_zero] at hg
  rw [hg]
  have hp := Forward_cpu_prob Real.exp Real.log layer (blob_of 1 2 [(0 : ℝ), 200])
    (blob_of 1 1 [0]) (top_with_weight 1) 1 1 2 hcfg 0 0 (by norm_num) (by norm_num)
  simp only [Nat.zero_mul, Nat.add_zero] at hp
  rw [hp, hl0]
  have hle : softmax_prob Real.exp (blob_of 1 2 [(0 : ℝ), 200]).cpu_data 0 2 0 ≤ FLT_MIN :=
    softmax_below_floor _ (by simp [blob_of]) (by simp [blob_of])
  have hlt : softmax_prob Real.exp (blob_of 1 2 [(0 : ℝ), 200]).cpu_data 0 2 0 < 1 :=
    lt_of_le_of_lt hle FLT_MIN_lt_one
  have hw : (MultiSoftmaxWithLossLayer.Forward_cpu Real.exp Real.log layer
      (blob_of 1 2 [(0 : ℝ), 200]) (blob_of 1 1 [0]) (top_with_weight 1)).2.cpu_diff 0 = 1 := rfl
  rw [hw]
  simp only [Nat.cast_one, div_one, one_mul, Nat.cast_zero, if_true]
  intro h
  linarith

/-- The label `1` of the one-example, one-classifier input is in the range of two
classes. -/
theorem sample_labels_in_range (n c : Nat) (hn : n < 1) (hc : c < 1) :
    0 ≤ static_cast_int ((blob_of 1 1 [(1 : ℝ)]).data_at n c 0 0) ∧
    static_cast_int ((blob_of 1 1 [(1 : ℝ)]).data_at n c 0 0) < ((2 : Nat) : Int) := by
  have hn0 : n = 0 := by omega
  have hc0 : c = 0 := by omega
  subst hn0 hc0
  simp [static_cast_int, Blob.data_at, Blob.offset, blob_of]

/-- Claim C2 on one example of one classifier with the two scores `(0, 0)` and label
`1`, over the reals. -/
theorem C2_loss_forward_value_witness :
    ∃ layer, (MultiSoftmaxWithLossLayer.LayerSetUp 1 (blob_of 1 2 [(0 : ℝ), 0])
          (blob_of 1 1 [1]) >>=
        fun l => MultiSoftmaxWithLossLayer.Reshape l (blob_of 1 2 [(0 : ℝ), 0])
          (blob_of 1 1 [1])) = .ok layer ∧
      (MultiSoftmaxWithLossLayer.Forward_cpu Real.exp Real.log layer (blob_of 1 2 [(0 : ℝ), 0])
          (blob_of 1 1 [1]) (top_with_weight 1)).2.cpu_data 0 =
        (1 / ((1 : Nat) : ℝ)) * ∑ n ∈ Finset.range 1, ∑ c ∈ Finset.range 1,
          -Real.log (max (softmax_prob Real.exp (blob_of 1 2 [(0 : ℝ), 0]).cpu_data
            ((blob_of 1 2 [(0 : ℝ), 0]).offset n (c * 2) 0 0) 2
            (static_cast_int ((blob_of 1 1 [(1 : ℝ)]).data_at n c 0 0)).toNat) FLT_MIN) :=
  C2_loss_forward_value Real.exp Real.log 1 1 2 (blob_of 1 2 [(0 : ℝ), 0]) (blob_of 1 1 [1])
    (top_with_weight 1) (le_refl 1) (le_refl 1) (by decide) ⟨rfl, rfl, rfl, rfl⟩
    ⟨rfl, rfl, rfl, rfl⟩ sample_labels_in_range

/-- Claim C3 on one example of one classifier with the two scores `(0, 0)`, label `1`
and upstream weight `1`, over the reals. -/
theorem C3_loss_backward_value_witness :
    ∃ layer, (MultiSoftmaxWithLossLayer.LayerSetUp 1 (blob_of 1 2 [(0 : ℝ), 0])
          (blob_of 1 1 [1]) >>=
        fun l => MultiSoftmaxWithLossLayer.Reshape l (blob_of 1 2 [(0 : ℝ), 0])
          (blob_of 1 1 [1])) = .ok layer ∧
      ∃ layer1 bottom01,
        MultiSoftmaxWithLossLayer.Backward_cpu
          (MultiSoftmaxWithLossLayer.Forward_cpu Real.exp Real.log layer
            (blob_of 1 2 [(0 : ℝ), 0]) (blob_of 1 1 [1]) (top_with_weight 1)).1
          (MultiSoftmaxWithLossLayer.Forward_cpu Real.exp Real.log layer
            (blob_of 1 2 [(0 : ℝ), 0]) (blob_of 1 1 [1]) (top_with_weight 1)).2
          true false (blob_of 1 2 [(0 : ℝ), 0]) (blob_of 1 1 [1]) = .ok (layer1, bottom01) ∧
        ∀ n c j, n < 1 → c < 1 → j < 2 →
          bottom01.cpu_diff ((blob_of 1 2 [(0 : ℝ), 0]).offset n (c * 2 + j) 0 0) =
            ((top_with_weight (1 : ℝ)).cpu_diff 0 / ((1 : Nat) : ℝ)) *
              (softmax_prob Real.exp (blob_of 1 2 [(0 : ℝ), 0]).cpu_data
                  ((blob_of 1 2 [(0 : ℝ), 0]).offset n (c * 2) 0 0) 2 j -
                (if (j : Int) = static_cast_int ((blob_of 1 1 [(1 : ℝ)]).data_at n c 0 0)
                  then 1 else 0)) :=
  C3_loss_backward_value Real.exp Real.log 1 1 2 (blob_of 1 2 [(0 : ℝ), 0]) (blob_of 1 1 [1])
    (top_with_weight 1) (le_refl 1) (le_refl 1) (by decide) ⟨rfl, rfl, rfl, rfl⟩
    ⟨rfl, rfl, rfl, rfl⟩ sample_labels_in_range

/-- The labels `(0, 1)` of the one-example, two-classifier input are in the range of
two classes. -/
theorem mixed_labels_in_range (n c : Nat) (hn : n < 1) (hc : c < 2) :
    0 ≤ static_cast_int ((blob_of 1 2 [(0 : ℝ), 1]).data_at n c 0 0) ∧
    static_cast_int ((blob_of 1 2 [(0 : ℝ), 1]).data_at n c 0 0) < ((2 : Nat) : Int) := by
  have hn0 : n = 0 := by omega
  subst hn0
  interval_cases c <;> simp [static_cast_int, Blob.data_at, Blob.offset, blob_of]

/-- On the scores `(0, 200 | 0, 0)` with labels `(0, 1)`, the second classifier's label
probability, one half, is above the floor `FLT_MIN`. -/
theorem mixed_second_row_above_floor :
    FLT_MIN < softmax_prob Real.exp (blob_of 1 4 [(0 : ℝ), 200, 0, 0]).cpu_data
      ((blob_of 1 4 [(0 : ℝ), 200, 0, 0]).offset 0 (1 * 2) 0 0) 2
      (static_cast_int ((blob_of 1 2 [(0 : ℝ), 1]).data_at 0 1 0 0)).toNat := by
  have hl : static_cast_int ((blob_of 1 2 [(0 : ℝ), 1]).data_at 0 1 0 0) = 1 := by
    simp [static_cast_int, Blob.data_at, Blob.offset, blob_of]
  rw [hl, softmax_prob_eq_exp_div]
  simp only [Finset.sum_range_succ, Finset.range_zero, Finset.sum_empty, zero_add]
  have h0 : ∀ k, k < 2 → (blob_of 1 4 [(0 : ℝ), 200, 0, 0]).cpu_data
      ((blob_of 1 4 [(0 : ℝ), 200, 0, 0]).offset 0 (1 * 2) 0 0 + k) = 0 := by
    intro k hk
    simp only [blob_of, Blob.offset]
    interval_cases k <;> simp
  simp only [Int.toNat_one, h0 0 (by decide), h0 1 (by decide), Real.exp_zero]
  calc (FLT_MIN : ℝ) < 1 / 2 := by unfold FLT_MIN; norm_num
    _ = 1 / (1 + 1) := by norm_num

/-- Claim C4, amended, on one example of two classifiers with the scores
`(0, 200 | 0, 0)`, labels `(0, 1)` and upstream weight `1`: the first classifier's
label probability is below the floor, the second's is above it, and the gradient is
exact at both entries of the second classifier. -/
theorem C4_gradient_exact_above_floor_witness :
    ∃ layer, (MultiSoftmaxWithLossLayer.LayerSetUp 1 (blob_of 1 4 [(0 : ℝ), 200, 0, 0])
          (blob_of 1 2 [(0 : ℝ), 1]) >>=
        fun l => MultiSoftmaxWithLossLayer.Reshape l (blob_of 1 4 [(0 : ℝ), 200, 0, 0])
          (blob_of 1 2 [(0 : ℝ), 1])) = .ok layer ∧
      ∃ layer1 bottom01,
        MultiSoftmaxWithLossLayer.Backward_cpu
          (MultiSoftmaxWithLossLayer.Forward_cpu Real.exp Real.log layer
            (blob_of 1 4 [(0 : ℝ), 200, 0, 0]) (blob_of 1 2 [(0 : ℝ), 1]) (top_with_weight 1)).1
          (MultiSoftmaxWithLossLayer.Forward_cpu Real.exp Real.log layer
            (blob_of 1 4 [(0 : ℝ), 200, 0, 0]) (blob_of 1 2 [(0 : ℝ), 1]) (top_with_weight 1)).2
          true false (blob_of 1 4 [(0 : ℝ), 200, 0, 0]) (blob_of 1 2 [(0 : ℝ), 1]) =
            .ok (layer1, bottom01) ∧
        softmax_prob Real.exp (blob_of 1 4 [(0 : ℝ), 200, 0, 0]).cpu_data
          ((blob_of 1 4 [(0 : ℝ), 200, 0, 0]).offset 0 (0 * 2) 0 0) 2 0 ≤ FLT_MIN ∧
        ∀ j, j < 2 →
          ∃ d, HasDerivAt
              (fun t => (MultiSoftmaxWithLossLayer.Forward_cpu Real.exp Real.log layer
                ((blob_of 1 4 [(0 : ℝ), 200, 0, 0]).set_data
                  ((blob_of 1 4 [(0 : ℝ), 200, 0, 0]).offset 0 (1 * 2 + j) 0 0) t)
                (blob_of 1 2 [(0 : ℝ), 1]) (top_with_weight 1)).2.cpu_data 0)
              d ((blob_of 1 4 [(0 : ℝ), 200, 0, 0]).cpu_data
                ((blob_of 1 4 [(0 : ℝ), 200, 0, 0]).offset 0 (1 * 2 + j) 0 0)) ∧
            bottom01.cpu_diff ((blob_of 1 4 [(0 : ℝ), 200, 0, 0]).offset 0 (1 * 2 + j) 0 0) =
              (top_with_weight (1 : ℝ)).cpu_diff 0 * d := by
  obtain ⟨layer, hset, layer1, bottom01, hback, hall⟩ :=
    C4_gradient_exact_above_floor 1 2 2 (blob_of 1 4 [(0 : ℝ), 200, 0, 0]) (blob_of 1 2 [(0 : ℝ), 1])
      (top_with_weight 1) (le_refl 1) (by decide) (by decide) ⟨rfl, rfl, rfl, rfl⟩
      ⟨rfl, rfl, rfl, rfl⟩ mixed_labels_in_range
  refine ⟨layer, hset, layer1, bottom01, hback, ?_, ?_⟩
  · exact softmax_below_floor _ (by simp [blob_of, Blob.offset])
      (by simp [blob_of, Blob.offset])
  · intro j hj
    exact hall 0 1 j (by decide) (by decide) hj mixed_second_row_above_floor

/-- Claim C10 on one example of one classifier with the two scores `(0, 0)` and label
`1`. -/
theorem C10_loss_nonneg_witness :
    ∃ layer, (MultiSoftmaxWithLossLayer.LayerSetUp 1 (blob_of 1 2 [(0 : ℝ), 0])
          (blob_of 1 1 [1]) >>=
        fun l => MultiSoftmaxWithLossLayer.Reshape l (blob_of 1 2 [(0 : ℝ), 0])
          (blob_of 1 1 [1])) = .ok layer ∧
      0 ≤ (MultiSoftmaxWithLossLayer.Forward_cpu Real.exp Real.log layer
        (blob_of 1 2 [(0 : ℝ), 0]) (blob_of 1 1 [1]) (top_with_weight 1)).2.cpu_data 0 :=
  C10_loss_nonneg 1 1 2 (blob_of 1 2 [(0 : ℝ), 0]) (blob_of 1 1 [1])
    (top_with_weight 1) (le_refl 1) (le_refl 1) (by decide) ⟨rfl, rfl, rfl, rfl⟩
    ⟨rfl, rfl, rfl, rfl⟩ sample_labels_in_range

end Gradient

section Protocol

variable {α : Type} [LinearOrderedField α] [FloorRing α]

/-- Claim C12. `Backward_cpu` stops on its `LOG(FATAL)` exactly when the gradient for
the labels is requested, whatever the request for the predictions; it has no other
failure; and when it stops there, the layer (its probability buffer included) and
the bottom blob (its gradient store included) are as they were at the call. -/
theorem C12_backward_fatal_iff_label_gradient (layer : MultiSoftmaxWithLossLayer α)
    (top0 bottom0 bottom1 : Blob α) (propagate_down0 propagate_down1 : Bool) :
    (MultiSoftmaxWithLossLayer.Backward_cpu layer top0 propagate_down0 propagate_down1
        bottom0 bottom1 = .error Failure.log_fatal ↔ propagate_down1 = true) ∧
    ((∃ e, MultiSoftmaxWithLossLayer.Backward_cpu layer top0 propagate_down0 propagate_down1
        bottom0 bottom1 = .error e) ↔ propagate_down1 = true) ∧
    MultiSoftmaxWithLossLayer.Backward_cpu_exit layer top0 propagate_down0 true
        bottom0 bottom1 = ((layer, bottom0), some Failure.log_fatal) ∧
    MultiSoftmaxWithLossLayer.Backward_cpu layer top0 propagate_down0 propagate_down1
        bottom0 bottom1 =
      (match MultiSoftmaxWithLossLayer.Backward_cpu_exit layer top0 propagate_down0
          propagate_down1 bottom0 bottom1 with
        | (memory, none) => .ok memory
        | (_, some e) => .error e) := by
  unfold MultiSoftmaxWithLossLayer.Backward_cpu MultiSoftmaxWithLossLayer.Backward_cpu_exit
  cases propagate_down1 <;> cases propagate_down0 <;> simp

/-- Claim C13, the code at two inputs accepted by setup. Predictions of extents
`(100, 10, 2, 1)` and labels of extents `(100, 5, 1, 1)` give `num_classes_ = 2`, and
`Reshape` with `top_k = 3` succeeds although `3` exceeds `2`, its check comparing
`top_k` with `2000 / 500 = 4`. Predictions of extents `(100, 10, 1, 1)` and labels of
extents `(100, 5, 2, 1)` give `num_classes_ = 2`, and `Reshape` with `top_k = 2`
stops on its check although `2` does not exceed `2`, the check comparing `top_k`
with `1000 / 1000 = 1`. -/
theorem C13_reshape_top_k_check_at_unequal_extents :
    (MultiClassAccuracyLayer.LayerSetUp 3 1 (blob_of_shape 100 10 2 1 : Blob ℚ)
        (blob_of_shape 100 5 1 1) =
        .ok { top_k_ := 3, label_axis_ := 1, num_classes_ := 2, num_classifiers_ := 5 } ∧
      (MultiClassAccuracyLayer.Reshape
          { top_k_ := 3, label_axis_ := 1, num_classes_ := 2, num_classifiers_ := 5 } 1
          (blob_of_shape 100 10 2 1 : Blob ℚ) (blob_of_shape 100 5 1 1)
          (blob_of_shape 0 0 0 0)).map (fun r => (r.1.top_k_, r.1.num_classes_)) =
        .ok (3, 2) ∧
      ¬ (3 ≤ 2)) ∧
    (MultiClassAccuracyLayer.LayerSetUp 2 1 (blob_of_shape 100 10 1 1 : Blob ℚ)
        (blob_of_shape 100 5 2 1) =
        .ok { top_k_ := 2, label_axis_ := 1, num_classes_ := 2, num_classifiers_ := 5 } ∧
      (MultiClassAccuracyLayer.Reshape
          { top_k_ := 2, label_axis_ := 1, num_classes_ := 2, num_classifiers_ := 5 } 1
          (blob_of_shape 100 10 1 1 : Blob ℚ) (blob_of_shape 100 5 2 1)
          (blob_of_shape 0 0 0 0)).map (fun r => (r.1.top_k_, r.1.num_classes_)) =
        .error Failure.check_failed ∧
      2 ≤ 2) := by
  refine ⟨⟨rfl, rfl, by decide⟩, rfl, rfl, by decide⟩

/-- Claim C15. After setup of the accuracy layer (`LayerSetUp`, then `Reshape`) on a
positive label extent `L` that divides the positive prediction extent, with the
`top_k` check of `Reshape` passing, the output blob has shape `(L, 1, 1, 1)`. -/
theorem C15_accuracy_output_shape (top_k axis : Nat) (bottom0 bottom1 top0 : Blob α)
    (hP : 1 ≤ bottom0.shape axis) (hL : 1 ≤ bottom1.shape axis)
    (hdiv : bottom0.shape axis % bottom1.shape axis = 0)
    (hcount : 1 ≤ bottom1.count) (htop : top_k ≤ bottom0.count / bottom1.count) :
    ∃ layer top1,
      (MultiClassAccuracyLayer.LayerSetUp top_k axis bottom0 bottom1 >>=
        fun l => MultiClassAccuracyLayer.Reshape l axis bottom0 bottom1 top0) =
        .ok (layer, top1) ∧
      top1.num = bottom1.shape axis ∧ top1.channels = 1 ∧
      top1.height = 1 ∧ top1.width = 1 := by
  rw [accuracy_LayerSetUp_eq top_k axis bottom0 bottom1 hP hL hdiv]
  simp only [bind, Except.bind, MultiClassAccuracyLayer.Reshape, int_div_of_pos _ _ hcount,
    htop, not_true_eq_false, if_false, pure, Except.pure]
  exact ⟨_, _, rfl, rfl, rfl, rfl, rfl⟩

/-- Claim C15 at the shapes of the two setup tests: one classifier (`L = 1`) and five
classifiers (`L = 5`) over ten scores, with the default `top_k = 1`. -/
theorem C15_accuracy_output_shape_witness :
    (∃ layer top1,
      (MultiClassAccuracyLayer.LayerSetUp 1 1 (blob_of 100 10 ([] : List ℚ)) (blob_of 100 1 []) >>=
        fun l => MultiClassAccuracyLayer.Reshape l 1 (blob_of 100 10 ([] : List ℚ))
          (blob_of 100 1 []) (blob_of_shape 0 0 0 0)) = .ok (layer, top1) ∧
      top1.num = 1 ∧ top1.channels = 1 ∧ top1.height = 1 ∧ top1.width = 1) ∧
    (∃ layer top1,
      (MultiClassAccuracyLayer.LayerSetUp 1 1 (blob_of 100 10 ([] : List ℚ)) (blob_of 100 5 []) >>=
        fun l => MultiClassAccuracyLayer.Reshape l 1 (blob_of 100 10 ([] : List ℚ))
          (blob_of 100 5 []) (blob_of_shape 0 0 0 0)) = .ok (layer, top1) ∧
      top1.num = 5 ∧ top1.channels = 1 ∧ top1.height = 1 ∧ top1.width = 1) :=
  ⟨C15_accuracy_output_shape 1 1 (blob_of 100 10 ([] : List ℚ)) (blob_of 100 1 [])
      (blob_of_shape 0 0 0 0) (by decide) (by decide) (by decide) (by decide) (by decide),
   C15_accuracy_output_shape 1 1 (blob_of 100 10 ([] : List ℚ)) (blob_of 100 5 [])
      (blob_of_shape 0 0 0 0) (by decide) (by decide) (by decide) (by decide) (by decide)⟩

/-- The `std::max_element` scan reads only the elements `first, ..., first + k`. -/
theorem max_element_scan_congr (d1 d2 : Nat → α) (first k : Nat)
    (h : ∀ j, j ≤ k → d1 (first + j) = d2 (first + j)) :
    max_element_scan d1 first k = max_element_scan d2 first k := by
  induction k with
  | zero => rfl
  | succ k ih =>
    have ih2 := ih (fun j hj => h j (Nat.le_succ_of_le hj))
    obtain ⟨hlo, hhi, _, _⟩ := max_element_scan_spec d2 first k
    have hval : d1 (max_element_scan d2 first k) = d2 (max_element_scan d2 first k) := by
      have := h (max_element_scan d2 first k - first) (by omega)
      rwa [Nat.add_sub_cancel' hlo] at this
    simp only [max_element_scan]
    rw [ih2, hval, h (k + 1) (le_refl _)]

/-- On blobs of height and width one with the same number of channels, `max_id` at
`(n, c)` reads only the `num_classes_` scores of the slice of classifier `c`. -/
theorem max_id_congr (layer : MultiClassAccuracyLayer) (b0 b0' : Blob α)
    (hch : b0.channels = b0'.channels)
    (hh : b0.height = 1) (hw : b0.width = 1) (hh' : b0'.height = 1) (hw' : b0'.width = 1)
    (hK : 1 ≤ layer.num_classes_) (n c : Nat)
    (hscores : ∀ j, j < layer.num_classes_ →
      b0.data_at n (c * layer.num_classes_ + j) 0 0 =
        b0'.data_at n (c * layer.num_classes_ + j) 0 0) :
    MultiClassAccuracyLayer.max_id layer b0 n c =
      MultiClassAccuracyLayer.max_id layer b0' n c := by
  have hfirst : ∀ b : Blob α, b.height = 1 → b.width = 1 →
      b.offset n (c * layer.num_classes_) 0 0 = n * b.channels + c * layer.num_classes_ := by
    intro b h1 h2
    simp [Blob.offset, h1, h2]
  have hlast : ∀ b : Blob α, b.height = 1 → b.width = 1 →
      b.offset n ((c + 1) * layer.num_classes_) 0 0 =
        n * b.channels + c * layer.num_classes_ + layer.num_classes_ := by
    intro b h1 h2
    simp [Blob.offset, h1, h2, Nat.add_mul, Nat.add_assoc]
  have hat : ∀ b : Blob α, b.height = 1 → b.width = 1 → ∀ j,
      b.data_at n (c * layer.num_classes_ + j) 0 0 =
        b.cpu_data (n * b.channels + c * layer.num_classes_ + j) := by
    intro b h1 h2 j
    simp [Blob.data_at, Blob.offset, h1, h2, Nat.add_assoc]
  have hne : ¬ (n * b0.channels + c * layer.num_classes_ + layer.num_classes_ ≤
      n * b0.channels + c * layer.num_classes_) := by omega
  simp only [MultiClassAccuracyLayer.max_id, max_element, hfirst b0 hh hw, hlast b0 hh hw,
    hfirst b0' hh' hw', hlast b0' hh' hw', ← hch, hne, if_false]
  congr 1
  apply max_element_scan_congr
  intro j hj
  have := hscores j (by omega)
  rw [hat b0 hh hw, hat b0' hh' hw', ← hch] at this
  exact this

/-- Claim C14. Two accuracy inputs with the same `N`, `C`, `K` that agree, for one
classifier `c`, on the scores `prediction[n, c * K .. (c + 1) * K)` and on the labels
`label[n, c]` of every example give the same output at `c`, whatever the scores and
labels of the other classifiers are. -/
theorem C14_accuracy_classifier_independent (top_k N C K : Nat)
    (bottom0 bottom1 top0 bottom0' bottom1' top0' : Blob α) (hK : 1 ≤ K)
    (h0 : bottom0.num = N ∧ bottom0.channels = C * K ∧ bottom0.height = 1 ∧ bottom0.width = 1)
    (h1 : bottom1.num = N ∧ bottom1.channels = C ∧ bottom1.height = 1 ∧ bottom1.width = 1)
    (h0' : bottom0'.num = N ∧ bottom0'.channels = C * K ∧ bottom0'.height = 1 ∧
      bottom0'.width = 1)
    (h1' : bottom1'.num = N ∧ bottom1'.channels = C ∧ bottom1'.height = 1 ∧
      bottom1'.width = 1)
    (c : Nat) (hc : c < C)
    (hscores : ∀ n j, n < N → j < K →
      bottom0.data_at n (c * K + j) 0 0 = bottom0'.data_at n (c * K + j) 0 0)
    (hlabels : ∀ n, n < N → bottom1.data_at n c 0 0 = bottom1'.data_at n c 0 0) :
    ∃ layer layer',
      MultiClassAccuracyLayer.LayerSetUp top_k 1 bottom0 bottom1 = .ok layer ∧
      MultiClassAccuracyLayer.LayerSetUp top_k 1 bottom0' bottom1' = .ok layer' ∧
      (MultiClassAccuracyLayer.Forward_cpu layer bottom0 bottom1 top0).cpu_data c =
        (MultiClassAccuracyLayer.Forward_cpu layer' bottom0' bottom1' top0').cpu_data c := by
  have hC : 1 ≤ C := by omega
  have hsetup : ∀ b0 b1 : Blob α,
      (b0.num = N ∧ b0.channels = C * K ∧ b0.height = 1 ∧ b0.width = 1) →
      (b1.num = N ∧ b1.channels = C ∧ b1.height = 1 ∧ b1.width = 1) →
      MultiClassAccuracyLayer.LayerSetUp top_k 1 b0 b1 =
        .ok { top_k_ := top_k, label_axis_ := 1, num_classes_ := K, num_classifiers_ := C } := by
    intro b0 b1 ⟨_, hb0c, _, _⟩ ⟨_, hb1c, _, _⟩
    have hP : 1 ≤ b0.shape 1 := by
      show 1 ≤ b0.channels
      rw [hb0c]; exact Nat.mul_pos hC hK
    have hL : 1 ≤ b1.shape 1 := by
      show 1 ≤ b1.channels
      rw [hb1c]; exact hC
    have hdiv : b0.shape 1 % b1.shape 1 = 0 := by
      show b0.channels % b1.channels = 0
      rw [hb0c, hb1c]; exact Nat.mul_mod_right C K
    have hq : b0.shape 1 / b1.shape 1 = K := by
      show b0.channels / b1.channels = K
      rw [hb0c, hb1c]; exact Nat.mul_div_cancel_left K hC
    have hl : b1.shape 1 = C := hb1c
    rw [accuracy_LayerSetUp_eq top_k 1 b0 b1 hP hL hdiv, hq, hl]
  refine ⟨_, _, hsetup bottom0 bottom1 h0 h1, hsetup bottom0' bottom1' h0' h1', ?_⟩
  rw [Forward_cpu_apply _ bottom0 bottom1 top0 c hc,
    Forward_cpu_apply _ bottom0' bottom1' top0' c hc, h0.1, h0'.1]
  congr 2
  apply congrArg Finset.card
  apply Finset.filter_congr
  intro n hn
  have hn2 := Finset.mem_range.mp hn
  have hid := max_id_congr
    { top_k_ := top_k, label_axis_ := 1, num_classes_ := K, num_classifiers_ := C }
    bottom0 bottom0' (by rw [h0.2.1, h0'.2.1]) h0.2.2.1 h0.2.2.2 h0'.2.2.1 h0'.2.2.2 hK n c
    (fun j hj => hscores n j hn2 hj)
  have hlab : MultiClassAccuracyLayer.label_value bottom1 n c =
      MultiClassAccuracyLayer.label_value bottom1' n c := by
    unfold MultiClassAccuracyLayer.label_value
    rw [hlabels n hn2]
  rw [hid, hlab]

/-- Claim C14 on two examples of two classifiers with two classes each: the two inputs
differ on the first classifier and agree on the second. -/
theorem C14_accuracy_classifier_independent_witness :
    ∃ layer layer',
      MultiClassAccuracyLayer.LayerSetUp 1 1 (blob_of 2 4 [1, 2, 3, 3, 5, 1, 0, (0 : ℚ)])
        (blob_of 2 2 [1, 0, 0, 1]) = .ok layer ∧
      MultiClassAccuracyLayer.LayerSetUp 1 1 (blob_of 2 4 [9, 9, 3, 3, 7, 8, 0, (0 : ℚ)])
        (blob_of 2 2 [0, 0, 1, 1]) = .ok layer' ∧
      (MultiClassAccuracyLayer.Forward_cpu layer (blob_of 2 4 [1, 2, 3, 3, 5, 1, 0, (0 : ℚ)])
          (blob_of 2 2 [1, 0, 0, 1]) (blob_of 2 1 [])).cpu_data 1 =
        (MultiClassAccuracyLayer.Forward_cpu layer' (blob_of 2 4 [9, 9, 3, 3, 7, 8, 0, (0 : ℚ)])
          (blob_of 2 2 [0, 0, 1, 1]) (blob_of 2 1 [])).cpu_data 1 :=
  C14_accuracy_classifier_independent 1 2 2 2 (blob_of 2 4 [1, 2, 3, 3, 5, 1, 0, (0 : ℚ)])
    (blob_of 2 2 [1, 0, 0, 1]) (blob_of 2 1 []) (blob_of 2 4 [9, 9, 3, 3, 7, 8, 0, (0 : ℚ)])
    (blob_of 2 2 [0, 0, 1, 1]) (blob_of 2 1 []) (by decide)
    ⟨rfl, rfl, rfl, rfl⟩ ⟨rfl, rfl, rfl, rfl⟩ ⟨rfl, rfl, rfl, rfl⟩ ⟨rfl, rfl, rfl, rfl⟩
    1 (by decide)
    (by intro n j hn hj; interval_cases n <;> interval_cases j <;> rfl)
    (by intro n hn; interval_cases n <;> rfl)

/-- `Backward_cpu` with only the prediction gradient requested, on a configured layer
and labels in the class range: it succeeds; the layer stays configured; one has been
subtracted from `prob_` at the label position of each row; the gradient written at
entry `j` of row `r` is `(w / N) * (p[r, j] - [j = label[r]])` for the `prob_` values
`p` before the call; the bottom blob keeps its shape and values, and its gradient
store beyond the last entry. -/
theorem Backward_cpu_state (layer : MultiSoftmaxWithLossLayer α) (top0 bottom0 bottom1 : Blob α)
    (N C K : Nat) (hK : 1 ≤ K)
    (hcfg : MultiSoftmaxWithLossLayer.configured layer N C K)
    (h0 : bottom0.num = N ∧ bottom0.channels = C * K ∧ bottom0.height = 1 ∧ bottom0.width = 1)
    (hlab : ∀ r, r < N * C → 0 ≤ MultiSoftmaxWithLossLayer.label_value bottom1 r ∧
      MultiSoftmaxWithLossLayer.label_value bottom1 r < (K : Int)) :
    ∃ layer1 bottom01,
      MultiSoftmaxWithLossLayer.Backward_cpu layer top0 true false bottom0 bottom1 =
        .ok (layer1, bottom01) ∧
      MultiSoftmaxWithLossLayer.configured layer1 N C K ∧
      (∀ r j, r < N * C → j < K →
        layer1.prob_.cpu_data (r * K + j) =
          layer.prob_.cpu_data (r * K + j) -
            (if (j : Int) = MultiSoftmaxWithLossLayer.label_value bottom1 r then 1 else 0)) ∧
      (∀ r j, r < N * C → j < K →
        bottom01.cpu_diff (r * K + j) =
          (top0.cpu_diff 0 / (N : α)) *
            (layer.prob_.cpu_data (r * K + j) -
              (if (j : Int) = MultiSoftmaxWithLossLayer.label_value bottom1 r then 1 else 0))) ∧
      (bottom01.num = N ∧ bottom01.channels = C * K ∧ bottom01.height = 1 ∧
        bottom01.width = 1) ∧
      bottom01.cpu_data = bottom0.cpu_data ∧
      (∀ i, N * C * K ≤ i → bottom01.cpu_diff i = bottom0.cpu_diff i) := by
  have hcfg2 := hcfg
  obtain ⟨_, _, _, ⟨hpn, hpc, hph, hpw⟩⟩ := hcfg
  have h02 := h0
  obtain ⟨h0n, h0c, h0h, h0w⟩ := h0
  have hcount : bottom0.count = N * C * K := by
    simp [Blob.count, h0n, h0c, h0h, h0w, Nat.mul_assoc]
  refine ⟨_, _, rfl, hcfg2, ?_, ?_, h02, rfl, ?_⟩
  · intro r j hr hj
    show MultiSoftmaxWithLossLayer.backward_rows layer.prob_ bottom1 layer.prob_.num
      (r * K + j) = _
    rw [hpn, backward_rows_apply layer.prob_ bottom1 K hK hpc hph hpw (N * C) hlab,
      row_index_div K r j hj, row_index_mod K r j hj]
    simp only [hr, true_and]
  · intro r j hr hj
    have hlt := row_index_lt N C K r j hr hj
    simp only [caffe_scal, caffe_copy, hcount, if_pos hlt, hpn, h0n]
    rw [backward_rows_apply layer.prob_ bottom1 K hK hpc hph hpw (N * C) hlab,
      row_index_div K r j hj, row_index_mod K r j hj]
    simp only [hr, true_and]
  · intro i hi
    have hnlt : ¬ i < N * C * K := by omega
    simp only [caffe_scal, caffe_copy, hcount, if_neg hnlt]

/-- Claim C18. `Backward_cpu` is not idempotent. After `Forward_cpu` and a first
`Backward_cpu`, a second `Backward_cpu` without a `Forward_cpu` in between succeeds
and writes `(w / N) * (softmax(...)[j] - 2 * [j = label[n, c]])` at `[n, c * K + j]`:
it differs from the first gradient by `-(w / N)` at every label position and equals
it elsewhere. -/
theorem C18_backward_twice_subtracts_twice (exp log : α → α) (N C K : Nat)
    (bottom0 bottom1 top0 : Blob α)
    (_hN : 1 ≤ N) (hC : 1 ≤ C) (hK : 1 ≤ K)
    (h0 : bottom0.num = N ∧ bottom0.channels = C * K ∧ bottom0.height = 1 ∧ bottom0.width = 1)
    (h1 : bottom1.num = N ∧ bottom1.channels = C ∧ bottom1.height = 1 ∧ bottom1.width = 1)
    (hlab : ∀ n c, n < N → c < C →
      0 ≤ static_cast_int (bottom1.data_at n c 0 0) ∧
      static_cast_int (bottom1.data_at n c 0 0) < (K : Int)) :
    ∃ layer, (MultiSoftmaxWithLossLayer.LayerSetUp 1 bottom0 bottom1 >>=
        fun l => MultiSoftmaxWithLossLayer.Reshape l bottom0 bottom1) = .ok layer ∧
      ∃ layer1 bottom01 layer2 bottom02,
        MultiSoftmaxWithLossLayer.Backward_cpu
          (MultiSoftmaxWithLossLayer.Forward_cpu exp log layer bottom0 bottom1 top0).1
          (MultiSoftmaxWithLossLayer.Forward_cpu exp log layer bottom0 bottom1 top0).2
          true false bottom0 bottom1 = .ok (layer1, bottom01) ∧
        MultiSoftmaxWithLossLayer.Backward_cpu layer1
          (MultiSoftmaxWithLossLayer.Forward_cpu exp log layer bottom0 bottom1 top0).2
          true false bottom01 bottom1 = .ok (layer2, bottom02) ∧
        ∀ n c j, n < N → c < C → j < K →
          bottom02.cpu_diff (bottom0.offset n (c * K + j) 0 0) =
            (top0.cpu_diff 0 / (N : α)) *
              (softmax_prob exp bottom0.cpu_data (bottom0.offset n (c * K) 0 0) K j -
                2 * (if (j : Int) = static_cast_int (bottom1.data_at n c 0 0)
                  then 1 else 0)) ∧
          bottom02.cpu_diff (bottom0.offset n (c * K + j) 0 0) -
              bottom01.cpu_diff (bottom0.offset n (c * K + j) 0 0) =
            (if (j : Int) = static_cast_int (bottom1.data_at n c 0 0)
              then -(top0.cpu_diff 0 / (N : α)) else 0) := by
  obtain ⟨layer, hset, hcfg⟩ := loss_setup_configured N C K bottom0 bottom1 hC hK h0 h1
  obtain ⟨hflat, hrows⟩ := labels_flat N C K bottom1 h1 hlab
  refine ⟨layer, hset, ?_⟩
  obtain ⟨layer1, bottom01, hback1, hcfg1, hprob1, hgrad1, hshape1, _, _⟩ :=
    Backward_cpu_state
      (MultiSoftmaxWithLossLayer.Forward_cpu exp log layer bottom0 bottom1 top0).1
      (MultiSoftmaxWithLossLayer.Forward_cpu exp log layer bottom0 bottom1 top0).2
      bottom0 bottom1 N C K hK
      (Forward_cpu_configured exp log layer bottom0 bottom1 top0 N C K hcfg) h0 hrows
  obtain ⟨layer2, bottom02, hback2, _, _, hgrad2, _, _, _⟩ :=
    Backward_cpu_state layer1
      (MultiSoftmaxWithLossLayer.Forward_cpu exp log layer bottom0 bottom1 top0).2
      bottom01 bottom1 N C K hK hcfg1 hshape1 hrows
  refine ⟨layer1, bottom01, layer2, bottom02, hback1, hback2, ?_⟩
  intro n c j hn hc hj
  have hr : n * C + c < N * C := by
    have h1 : (n + 1) * C ≤ N * C := Nat.mul_le_mul_right C hn
    rw [Nat.succ_mul] at h1
    omega
  have hoff := offset_packed N C K bottom0 h0 n c j
  have hoff0 := offset_packed N C K bottom0 h0 n c 0
  simp only [Nat.add_zero] at hoff0
  have hw : (MultiSoftmaxWithLossLayer.Forward_cpu exp log layer bottom0 bottom1
      top0).2.cpu_diff 0 = top0.cpu_diff 0 := rfl
  rw [hoff, hoff0, hgrad2 (n * C + c) j hr hj, hgrad1 (n * C + c) j hr hj,
    hprob1 (n * C + c) j hr hj,
    Forward_cpu_prob exp log layer bottom0 bottom1 top0 N C K hcfg _ _ hr hj, hflat, hw]
  constructor
  · ring
  · split_ifs <;> ring

/-- The probabilities of a real softmax row of at least one score sum to one. -/
theorem softmax_prob_sum_one (x : Nat → ℝ) (start K : Nat) (hK : 1 ≤ K) :
    ∑ j ∈ Finset.range K, softmax_prob Real.exp x start K j = 1 := by
  have hS : 0 < ∑ k ∈ Finset.range K, Real.exp (x (start + k)) :=
    Finset.sum_pos (fun i _ => Real.exp_pos _) ⟨0, Finset.mem_range.mpr (by omega)⟩
  simp only [softmax_prob_eq_exp_div]
  rw [← Finset.sum_div, div_self (ne_of_gt hS)]

/-- A label in the class range is the index of exactly one of the `K` entries. -/
theorem one_hot_sum_one (K : Nat) (l : Int) (hl0 : 0 ≤ l) (hlK : l < (K : Int)) :
    ∑ j ∈ Finset.range K, (if (j : Int) = l then (1 : α) else 0) = 1 := by
  have hiff : ∀ j : Nat, ((j : Int) = l) ↔ (j = l.toNat) := by
    intro j; omega
  simp only [hiff]
  rw [Finset.sum_ite_eq', if_pos (Finset.mem_range.mpr (by omega))]

/-- Claim C11. For every input with `N ≥ 1`, all labels in the class range and any
upstream weight, after `Forward_cpu` then `Backward_cpu` over the reals the gradient
entries of each classifier slice sum to zero, and so does each whole example row of
the gradient. -/
theorem C11_gradient_sums_to_zero (N C K : Nat) (bottom0 bottom1 top0 : Blob ℝ)
    (_hN : 1 ≤ N) (hC : 1 ≤ C) (hK : 1 ≤ K)
    (h0 : bottom0.num = N ∧ bottom0.channels = C * K ∧ bottom0.height = 1 ∧ bottom0.width = 1)
    (h1 : bottom1.num = N ∧ bottom1.channels = C ∧ bottom1.height = 1 ∧ bottom1.width = 1)
    (hlab : ∀ n c, n < N → c < C →
      0 ≤ static_cast_int (bottom1.data_at n c 0 0) ∧
      static_cast_int (bottom1.data_at n c 0 0) < (K : Int)) :
    ∃ layer, (MultiSoftmaxWithLossLayer.LayerSetUp 1 bottom0 bottom1 >>=
        fun l => MultiSoftmaxWithLossLayer.Reshape l bottom0 bottom1) = .ok layer ∧
      ∃ layer1 bottom01,
        MultiSoftmaxWithLossLayer.Backward_cpu
          (MultiSoftmaxWithLossLayer.Forward_cpu Real.exp Real.log layer bottom0 bottom1 top0).1
          (MultiSoftmaxWithLossLayer.Forward_cpu Real.exp Real.log layer bottom0 bottom1 top0).2
          true false bottom0 bottom1 = .ok (layer1, bottom01) ∧
        (∀ n c, n < N → c < C →
          ∑ j ∈ Finset.range K, bottom01.cpu_diff (bottom0.offset n (c * K + j) 0 0) = 0) ∧
        (∀ n, n < N →
          ∑ i ∈ Finset.range (C * K), bottom01.cpu_diff (bottom0.offset n i 0 0) = 0) := by
  obtain ⟨layer, hset, hcfg⟩ := loss_setup_configured N C K bottom0 bottom1 hC hK h0 h1
  obtain ⟨_, hrows⟩ := labels_flat N C K bottom1 h1 hlab
  refine ⟨layer, hset, ?_⟩
  obtain ⟨layer1, bottom01, hback, hgrad⟩ := Backward_cpu_rows
    (MultiSoftmaxWithLossLayer.Forward_cpu Real.exp Real.log layer bottom0 bottom1 top0).1
    (MultiSoftmaxWithLossLayer.Forward_cpu Real.exp Real.log layer bottom0 bottom1 top0).2
    bottom0 bottom1 N C K hK
    (Forward_cpu_configured Real.exp Real.log layer bottom0 bottom1 top0 N C K hcfg) h0 hrows
  have hslice : ∀ n c, n < N → c < C →
      ∑ j ∈ Finset.range K, bottom01.cpu_diff (bottom0.offset n (c * K + j) 0 0) = 0 := by
    intro n c hn hc
    have hr : n * C + c < N * C := by
      have h1 : (n + 1) * C ≤ N * C := Nat.mul_le_mul_right C hn
      rw [Nat.succ_mul] at h1
      omega
    obtain ⟨hl0, hlK⟩ := hrows (n * C + c) hr
    have hterm : ∀ j ∈ Finset.range K,
        bottom01.cpu_diff (bottom0.offset n (c * K + j) 0 0) =
          ((MultiSoftmaxWithLossLayer.Forward_cpu Real.exp Real.log layer bottom0 bottom1
              top0).2.cpu_diff 0 / (N : ℝ)) *
            (softmax_prob Real.exp bottom0.cpu_data ((n * C + c) * K) K j -
              (if (j : Int) = MultiSoftmaxWithLossLayer.label_value bottom1 (n * C + c)
                then 1 else 0)) := by
      intro j hj
      have hj2 := Finset.mem_range.mp hj
      rw [offset_packed N C K bottom0 h0 n c j, hgrad (n * C + c) j hr hj2,
        Forward_cpu_prob Real.exp Real.log layer bottom0 bottom1 top0 N C K hcfg _ _ hr hj2]
    rw [Finset.sum_congr rfl hterm, ← Finset.mul_sum, Finset.sum_sub_distrib,
      softmax_prob_sum_one _ _ _ hK, one_hot_sum_one K _ hl0 hlK, sub_self, mul_zero]
  refine ⟨layer1, bottom01, hback, hslice, ?_⟩
  intro n hn
  have hsplit := sum_rows_eq_sum_examples
    (fun i => bottom01.cpu_diff (bottom0.offset n i 0 0)) C K
  rw [hsplit]
  exact Finset.sum_eq_zero (fun c hc => hslice n c hn (Finset.mem_range.mp hc))

/-- `Backward_cpu`, when it succeeds, keeps the configuration and the buffer shapes. -/
theorem Backward_cpu_configured (layer layer1 : MultiSoftmaxWithLossLayer α)
    (top0 bottom0 bottom1 bottom01 : Blob α) (propagate_down0 propagate_down1 : Bool)
    (N C K : Nat) (hcfg : MultiSoftmaxWithLossLayer.configured layer N C K)
    (h : MultiSoftmaxWithLossLayer.Backward_cpu layer top0 propagate_down0 propagate_down1
      bottom0 bottom1 = .ok (layer1, bottom01)) :
    MultiSoftmaxWithLossLayer.configured layer1 N C K := by
  unfold MultiSoftmaxWithLossLayer.Backward_cpu at h
  cases propagate_down1 <;> cases propagate_down0 <;>
    simp only [if_true, if_false, Bool.false_eq_true, reduceCtorEq] at h
  · injection h with h
    injection h with h1 _
    rw [← h1]; exact hcfg
  · injection h with h
    injection h with h1 _
    rw [← h1]; exact hcfg

/-- Every reachable layer state is configured for its shape. -/
theorem reachable_configured (exp log : α → α) (N C K : Nat)
    (layer : MultiSoftmaxWithLossLayer α)
    (h : MultiSoftmaxWithLossLayer.reachable exp log N C K layer) :
    MultiSoftmaxWithLossLayer.configured layer N C K := by
  induction h with
  | setup bottom0 bottom1 layer hC hK h0 h1 hset =>
    obtain ⟨layer', hset', hcfg⟩ := loss_setup_configured N C K bottom0 bottom1 hC hK h0 h1
    rw [hset] at hset'
    injection hset' with heq
    rw [heq]; exact hcfg
  | forward layer bottom0 bottom1 top0 _ ih =>
    exact Forward_cpu_configured exp log layer bottom0 bottom1 top0 N C K ih
  | backward layer layer1 top0 bottom0 bottom1 bottom01 pd0 pd1 _ hback ih =>
    exact Backward_cpu_configured layer layer1 top0 bottom0 bottom1 bottom01 pd0 pd1 N C K ih hback

/-- Claim C16. `Forward_cpu` fully overwrites the probability buffer. For any two layer
states reachable at a fixed shape, `Forward_cpu` on the same predictions and labels
(labels in the class range) writes the same loss and the same `N * C * K` buffer
entries: they depend only on the inputs. Hence `Forward_cpu`, `Backward_cpu`,
`Forward_cpu`, `Backward_cpu` on the same inputs gives, the second time, the same
loss and the same gradient as the first time. -/
theorem C16_forward_overwrites_buffer (exp log : α → α) (N C K : Nat)
    (layerA layerB : MultiSoftmaxWithLossLayer α) (bottom0 bottom1 top0 : Blob α)
    (hK : 1 ≤ K)
    (hA : MultiSoftmaxWithLossLayer.reachable exp log N C K layerA)
    (hB : MultiSoftmaxWithLossLayer.reachable exp log N C K layerB)
    (h0 : bottom0.num = N ∧ bottom0.channels = C * K ∧ bottom0.height = 1 ∧ bottom0.width = 1)
    (h1 : bottom1.num = N ∧ bottom1.channels = C ∧ bottom1.height = 1 ∧ bottom1.width = 1)
    (hlab : ∀ n c, n < N → c < C →
      0 ≤ static_cast_int (bottom1.data_at n c 0 0) ∧
      static_cast_int (bottom1.data_at n c 0 0) < (K : Int)) :
    ((MultiSoftmaxWithLossLayer.Forward_cpu exp log layerA bottom0 bottom1 top0).2.cpu_data 0 =
        (MultiSoftmaxWithLossLayer.Forward_cpu exp log layerB bottom0 bottom1 top0).2.cpu_data 0 ∧
      ∀ i, i < N * C * K →
        (MultiSoftmaxWithLossLayer.Forward_cpu exp log layerA bottom0 bottom1
            top0).1.prob_.cpu_data i =
          (MultiSoftmaxWithLossLayer.Forward_cpu exp log layerB bottom0 bottom1
            top0).1.prob_.cpu_data i) ∧
    ∃ layer1 bottom01 layer2 bottom02,
      MultiSoftmaxWithLossLayer.Backward_cpu
        (MultiSoftmaxWithLossLayer.Forward_cpu exp log layerA bottom0 bottom1 top0).1
        (MultiSoftmaxWithLossLayer.Forward_cpu exp log layerA bottom0 bottom1 top0).2
        true false bottom0 bottom1 = .ok (layer1, bottom01) ∧
      MultiSoftmaxWithLossLayer.Backward_cpu
        (MultiSoftmaxWithLossLayer.Forward_cpu exp log layer1 bottom01 bottom1
          (MultiSoftmaxWithLossLayer.Forward_cpu exp log layerA bottom0 bottom1 top0).2).1
        (MultiSoftmaxWithLossLayer.Forward_cpu exp log layer1 bottom01 bottom1
          (MultiSoftmaxWithLossLayer.Forward_cpu exp log layerA bottom0 bottom1 top0).2).2
        true false bottom01 bottom1 = .ok (layer2, bottom02) ∧
      (MultiSoftmaxWithLossLayer.Forward_cpu exp log layer1 bottom01 bottom1
          (MultiSoftmaxWithLossLayer.Forward_cpu exp log layerA bottom0 bottom1
            top0).2).2.cpu_data 0 =
        (MultiSoftmaxWithLossLayer.Forward_cpu exp log layerA bottom0 bottom1 top0).2.cpu_data 0 ∧
      ∀ i, bottom02.cpu_diff i = bottom01.cpu_diff i := by
  have hcfgA := reachable_configured exp log N C K layerA hA
  have hcfgB := reachable_configured exp log N C K layerB hB
  obtain ⟨_, hrows⟩ := labels_flat N C K bottom1 h1 hlab
  have hsplit : ∀ i, i < N * C * K → i / K < N * C ∧ i % K < K ∧ i / K * K + i % K = i := by
    intro i hi
    refine ⟨Nat.div_lt_of_lt_mul (by rw [Nat.mul_comm]; exact hi), Nat.mod_lt i (by omega), ?_⟩
    rw [Nat.mul_comm]; exact Nat.div_add_mod i K
  refine ⟨⟨?_, ?_⟩, ?_⟩
  · rw [Forward_cpu_loss_rows exp log layerA bottom0 bottom1 top0 N C K hcfgA hrows,
      Forward_cpu_loss_rows exp log layerB bottom0 bottom1 top0 N C K hcfgB hrows]
  · intro i hi
    obtain ⟨hr, hj, hi2⟩ := hsplit i hi
    rw [← hi2, Forward_cpu_prob exp log layerA bottom0 bottom1 top0 N C K hcfgA _ _ hr hj,
      Forward_cpu_prob exp log layerB bottom0 bottom1 top0 N C K hcfgB _ _ hr hj]
  · obtain ⟨layer1, bottom01, hback1, hcfg1, _, hgrad1, hshape1, hdata1, _⟩ :=
      Backward_cpu_state
        (MultiSoftmaxWithLossLayer.Forward_cpu exp log layerA bottom0 bottom1 top0).1
        (MultiSoftmaxWithLossLayer.Forward_cpu exp log layerA bottom0 bottom1 top0).2
        bottom0 bottom1 N C K hK
        (Forward_cpu_configured exp log layerA bottom0 bottom1 top0 N C K hcfgA) h0 hrows
    obtain ⟨layer2, bottom02, hback2, _, _, hgrad2, _, _, hbeyond2⟩ :=
      Backward_cpu_state
        (MultiSoftmaxWithLossLayer.Forward_cpu exp log layer1 bottom01 bottom1
          (MultiSoftmaxWithLossLayer.Forward_cpu exp log layerA bottom0 bottom1 top0).2).1
        (MultiSoftmaxWithLossLayer.Forward_cpu exp log layer1 bottom01 bottom1
          (MultiSoftmaxWithLossLayer.Forward_cpu exp log layerA bottom0 bottom1 top0).2).2
        bottom01 bottom1 N C K hK
        (Forward_cpu_configured exp log layer1 bottom01 bottom1 _ N C K hcfg1) hshape1 hrows
    refine ⟨layer1, bottom01, layer2, bottom02, hback1, hback2, ?_, ?_⟩
    · rw [Forward_cpu_loss_rows exp log layer1 bottom01 bottom1 _ N C K hcfg1 hrows,
        Forward_cpu_loss_rows exp log layerA bottom0 bottom1 top0 N C K hcfgA hrows,
        hdata1, hshape1.1, h0.1]
    · intro i
      rcases Nat.lt_or_ge i (N * C * K) with hi | hi
      · obtain ⟨hr, hj, hi2⟩ := hsplit i hi
        rw [← hi2, hgrad2 _ _ hr hj, hgrad1 _ _ hr hj,
          Forward_cpu_prob exp log layer1 bottom01 bottom1 _ N C K hcfg1 _ _ hr hj,
          Forward_cpu_prob exp log layerA bottom0 bottom1 top0 N C K hcfgA _ _ hr hj, hdata1]
        rfl
      · exact hbeyond2 i hi

/-- Claim C17. For every input with `N ≥ 1` and labels in the class range, over the
reals, each (example, classifier) row contributes at most `-log FLT_MIN` to the
accumulated sum, and the loss written by `Forward_cpu` is at most
`num_classifiers * (-log FLT_MIN)`. -/
theorem C17_loss_bounded_by_floor (N C K : Nat) (bottom0 bottom1 top0 : Blob ℝ)
    (hN : 1 ≤ N) (hC : 1 ≤ C) (hK : 1 ≤ K)
    (h0 : bottom0.num = N ∧ bottom0.channels = C * K ∧ bottom0.height = 1 ∧ bottom0.width = 1)
    (h1 : bottom1.num = N ∧ bottom1.channels = C ∧ bottom1.height = 1 ∧ bottom1.width = 1)
    (hlab : ∀ n c, n < N → c < C →
      0 ≤ static_cast_int (bottom1.data_at n c 0 0) ∧
      static_cast_int (bottom1.data_at n c 0 0) < (K : Int)) :
    ∃ layer, (MultiSoftmaxWithLossLayer.LayerSetUp 1 bottom0 bottom1 >>=
        fun l => MultiSoftmaxWithLossLayer.Reshape l bottom0 bottom1) = .ok layer ∧
      (∀ n c, n < N → c < C →
        -Real.log (max (softmax_prob Real.exp bottom0.cpu_data
            (bottom0.offset n (c * K) 0 0) K
            (static_cast_int (bottom1.data_at n c 0 0)).toNat) FLT_MIN) ≤
          -Real.log FLT_MIN) ∧
      layer.num_classifiers_ = C ∧
      (MultiSoftmaxWithLossLayer.Forward_cpu Real.exp Real.log layer bottom0 bottom1
          top0).2.cpu_data 0 ≤ (layer.num_classifiers_ : ℝ) * (-Real.log FLT_MIN) := by
  obtain ⟨layer, hset, hcfg⟩ := loss_setup_configured N C K bottom0 bottom1 hC hK h0 h1
  obtain ⟨_, hrows⟩ := labels_flat N C K bottom1 h1 hlab
  have hterm : ∀ p : ℝ, -Real.log (max p FLT_MIN) ≤ -Real.log FLT_MIN := by
    intro p
    rw [neg_le_neg_iff]
    exact Real.log_le_log FLT_MIN_pos (le_max_right _ _)
  refine ⟨layer, hset, fun n c _ _ => hterm _, hcfg.2.1, ?_⟩
  rw [Forward_cpu_loss_rows Real.exp Real.log layer bottom0 bottom1 top0 N C K hcfg hrows,
    h0.1, hcfg.2.1]
  have hNpos : (0 : ℝ) < (N : ℝ) := by exact_mod_cast hN
  rw [div_le_iff₀ hNpos]
  calc ∑ r ∈ Finset.range (N * C), -Real.log (max (softmax_prob Real.exp bottom0.cpu_data
          (r * K) K (MultiSoftmaxWithLossLayer.label_value bottom1 r).toNat) FLT_MIN)
      ≤ ∑ _r ∈ Finset.range (N * C), -Real.log FLT_MIN :=
        Finset.sum_le_sum (fun r _ => hterm _)
    _ = (C : ℝ) * (-Real.log FLT_MIN) * (N : ℝ) := by
        rw [Finset.sum_const, Finset.card_range, nsmul_eq_mul]
        push_cast
        ring

/-- Setup (`LayerSetUp`, then `Reshape`) on predictions of shape `(N, C * K)` and labels
of shape `(N, C)` returns the state `after_setup N C K`. -/
theorem loss_setup_eq (N C K : Nat) (bottom0 bottom1 : Blob α)
    (hC : 1 ≤ C) (hK : 1 ≤ K)
    (h0 : bottom0.num = N ∧ bottom0.channels = C * K ∧ bottom0.height = 1 ∧ bottom0.width = 1)
    (h1 : bottom1.num = N ∧ bottom1.channels = C ∧ bottom1.height = 1 ∧ bottom1.width = 1) :
    (MultiSoftmaxWithLossLayer.LayerSetUp 1 bottom0 bottom1 >>=
        fun l => MultiSoftmaxWithLossLayer.Reshape l bottom0 bottom1) =
      .ok (MultiSoftmaxWithLossLayer.after_setup N C K) := by
  obtain ⟨h0n, h0c, h0h, h0w⟩ := h0
  obtain ⟨h1n, h1c, h1h, h1w⟩ := h1
  have hP : 1 ≤ bottom0.shape 1 := by
    show 1 ≤ bottom0.channels
    rw [h0c]; exact Nat.mul_pos hC hK
  have hL : 1 ≤ bottom1.shape 1 := by
    show 1 ≤ bottom1.channels
    rw [h1c]; exact hC
  have hdiv : bottom0.shape 1 % bottom1.shape 1 = 0 := by
    show bottom0.channels % bottom1.channels = 0
    rw [h0c, h1c]; exact Nat.mul_mod_right C K
  have hq : bottom0.shape 1 / bottom1.shape 1 = K := by
    show bottom0.channels / bottom1.channels = K
    rw [h0c, h1c]; exact Nat.mul_div_cancel_left K hC
  have hl : bottom1.shape 1 = C := h1c
  have hcount : bottom0.count / K = bottom1.count := by
    simp only [Blob.count, h0n, h0c, h0h, h0w, h1n, h1c, h1h, h1w, Nat.mul_one]
    rw [← Nat.mul_assoc]
    exact Nat.mul_div_cancel _ hK
  rw [loss_LayerSetUp_eq 1 bottom0 bottom1 hP hL hdiv, hq, hl]
  simp only [bind, Except.bind, MultiSoftmaxWithLossLayer.Reshape, int_div_of_pos _ _ hK,
    hcount, ne_eq, not_true_eq_false, if_false, pure, Except.pure, h0n]
  rfl

/-- The state after setup on the one-example, one-classifier, two-class input is
reachable. -/
theorem sample_reachable :
    MultiSoftmaxWithLossLayer.reachable Real.exp Real.log 1 1 2
      (MultiSoftmaxWithLossLayer.after_setup 1 1 2 : MultiSoftmaxWithLossLayer ℝ) :=
  MultiSoftmaxWithLossLayer.reachable.setup (blob_of 1 2 [(0 : ℝ), 0]) (blob_of 1 1 [1]) _
    (le_refl 1) (by decide) ⟨rfl, rfl, rfl, rfl⟩ ⟨rfl, rfl, rfl, rfl⟩
    (loss_setup_eq 1 1 2 (blob_of 1 2 [(0 : ℝ), 0]) (blob_of 1 1 [1]) (le_refl 1) (by decide)
      ⟨rfl, rfl, rfl, rfl⟩ ⟨rfl, rfl, rfl, rfl⟩)

/-- Claim C11 on one example of one classifier with the two scores `(0, 0)`, label `1`
and upstream weight `1`. -/
theorem C11_gradient_sums_to_zero_witness :
    ∃ layer, (MultiSoftmaxWithLossLayer.LayerSetUp 1 (blob_of 1 2 [(0 : ℝ), 0]) (blob_of 1 1 [(1 : ℝ)]) >>=
        fun l => MultiSoftmaxWithLossLayer.Reshape l (blob_of 1 2 [(0 : ℝ), 0]) (blob_of 1 1 [(1 : ℝ)])) = .ok layer ∧
      ∃ layer1 bottom01,
        MultiSoftmaxWithLossLayer.Backward_cpu
          (MultiSoftmaxWithLossLayer.Forward_cpu Real.exp Real.log layer
          (blob_of 1 2 [(0 : ℝ), 0]) (blob_of 1 1 [(1 : ℝ)]) (top_with_weight (1 : ℝ))).1
          (MultiSoftmaxWithLossLayer.Forward_cpu Real.exp Real.log layer
          (blob_of 1 2 [(0 : ℝ), 0]) (blob_of 1 1 [(1 : ℝ)]) (top_with_weight (1 : ℝ))).2
          true false (blob_of 1 2 [(0 : ℝ), 0]) (blob_of 1 1 [(1 : ℝ)]) = .ok (layer1, bottom01) ∧
        (∀ n c, n < 1 → c < 1 →
          ∑ j ∈ Finset.range 2, bottom01.cpu_diff ((blob_of 1 2 [(0 : ℝ), 0]).offset n (c * 2 + j) 0 0) = 0) ∧
        (∀ n, n < 1 →
          ∑ i ∈ Finset.range (1 * 2), bottom01.cpu_diff ((blob_of 1 2 [(0 : ℝ), 0]).offset n i 0 0) = 0) :=
  C11_gradient_sums_to_zero 1 1 2 (blob_of 1 2 [(0 : ℝ), 0]) (blob_of 1 1 [(1 : ℝ)]) (top_with_weight (1 : ℝ))
    (le_refl 1) (le_refl 1) (by decide) ⟨rfl, rfl, rfl, rfl⟩
    ⟨rfl, rfl, rfl, rfl⟩ sample_labels_in_range

/-- Claim C16 at two reachable states: the state after setup, and the state after a
`Forward_cpu` on the other scores `(3, 4)` with label `0`. -/
theorem C16_forward_overwrites_buffer_witness :
    ((MultiSoftmaxWithLossLayer.Forward_cpu Real.exp Real.log (MultiSoftmaxWithLossLayer.after_setup 1 1 2 : MultiSoftmaxWithLossLayer ℝ)
          (blob_of 1 2 [(0 : ℝ), 0]) (blob_of 1 1 [(1 : ℝ)]) (top_with_weight (1 : ℝ))).2.cpu_data 0 =
        (MultiSoftmaxWithLossLayer.Forward_cpu Real.exp Real.log (MultiSoftmaxWithLossLayer.Forward_cpu Real.exp Real.log (MultiSoftmaxWithLossLayer.after_setup 1 1 2 : MultiSoftmaxWithLossLayer ℝ)
        (blob_of 1 2 [(3 : ℝ), 4]) (blob_of 1 1 [(0 : ℝ)]) (top_with_weight (1 : ℝ))).1
          (blob_of 1 2 [(0 : ℝ), 0]) (blob_of 1 1 [(1 : ℝ)]) (top_with_weight (1 : ℝ))).2.cpu_data 0 ∧
      ∀ i, i < 1 * 1 * 2 →
        (MultiSoftmaxWithLossLayer.Forward_cpu Real.exp Real.log (MultiSoftmaxWithLossLayer.after_setup 1 1 2 : MultiSoftmaxWithLossLayer ℝ)
          (blob_of 1 2 [(0 : ℝ), 0]) (blob_of 1 1 [(1 : ℝ)]) (top_with_weight (1 : ℝ))).1.prob_.cpu_data i =
          (MultiSoftmaxWithLossLayer.Forward_cpu Real.exp Real.log (MultiSoftmaxWithLossLayer.Forward_cpu Real.exp Real.log (MultiSoftmaxWithLossLayer.after_setup 1 1 2 : MultiSoftmaxWithLossLayer ℝ)
        (blob_of 1 2 [(3 : ℝ), 4]) (blob_of 1 1 [(0 : ℝ)]) (top_with_weight (1 : ℝ))).1
          (blob_of 1 2 [(0 : ℝ), 0]) (blob_of 1 1 [(1 : ℝ)]) (top_with_weight (1 : ℝ))).1.prob_.cpu_data i) ∧
    ∃ layer1 bottom01 layer2 bottom02,
      MultiSoftmaxWithLossLayer.Backward_cpu
        (MultiSoftmaxWithLossLayer.Forward_cpu Real.exp Real.log (MultiSoftmaxWithLossLayer.after_setup 1 1 2 : MultiSoftmaxWithLossLayer ℝ)
          (blob_of 1 2 [(0 : ℝ), 0]) (blob_of 1 1 [(1 : ℝ)]) (top_with_weight (1 : ℝ))).1
        (MultiSoftmaxWithLossLayer.Forward_cpu Real.exp Real.log (MultiSoftmaxWithLossLayer.after_setup 1 1 2 : MultiSoftmaxWithLossLayer ℝ)
          (blob_of 1 2 [(0 : ℝ), 0]) (blob_of 1 1 [(1 : ℝ)]) (top_with_weight (1 : ℝ))).2
        true false (blob_of 1 2 [(0 : ℝ), 0]) (blob_of 1 1 [(1 : ℝ)]) = .ok (layer1, bottom01) ∧
      MultiSoftmaxWithLossLayer.Backward_cpu
        (MultiSoftmaxWithLossLayer.Forward_cpu Real.exp Real.log layer1 bottom01 (blob_of 1 1 [(1 : ℝ)])
          (MultiSoftmaxWithLossLayer.Forward_cpu Real.exp Real.log (MultiSoftmaxWithLossLayer.after_setup 1 1 2 : MultiSoftmaxWithLossLayer ℝ)
          (blob_of 1 2 [(0 : ℝ), 0]) (blob_of 1 1 [(1 : ℝ)]) (top_with_weight (1 : ℝ))).2).1
        (MultiSoftmaxWithLossLayer.Forward_cpu Real.exp Real.log layer1 bottom01 (blob_of 1 1 [(1 : ℝ)])
          (MultiSoftmaxWithLossLayer.Forward_cpu Real.exp Real.log (MultiSoftmaxWithLossLayer.after_setup 1 1 2 : MultiSoftmaxWithLossLayer ℝ)
          (blob_of 1 2 [(0 : ℝ), 0]) (blob_of 1 1 [(1 : ℝ)]) (top_with_weight (1 : ℝ))).2).2
        true false bottom01 (blob_of 1 1 [(1 : ℝ)]) = .ok (layer2, bottom02) ∧
      (MultiSoftmaxWithLossLayer.Forward_cpu Real.exp Real.log layer1 bottom01 (blob_of 1 1 [(1 : ℝ)])
          (MultiSoftmaxWithLossLayer.Forward_cpu Real.exp Real.log (MultiSoftmaxWithLossLayer.after_setup 1 1 2 : MultiSoftmaxWithLossLayer ℝ)
          (blob_of 1 2 [(0 : ℝ), 0]) (blob_of 1 1 [(1 : ℝ)]) (top_with_weight (1 : ℝ))).2).2.cpu_data 0 =
        (MultiSoftmaxWithLossLayer.Forward_cpu Real.exp Real.log (MultiSoftmaxWithLossLayer.after_setup 1 1 2 : MultiSoftmaxWithLossLayer ℝ)
          (blob_of 1 2 [(0 : ℝ), 0]) (blob_of 1 1 [(1 : ℝ)]) (top_with_weight (1 : ℝ))).2.cpu_data 0 ∧
      ∀ i, bottom02.cpu_diff i = bottom01.cpu_diff i :=
  C16_forward_overwrites_buffer Real.exp Real.log 1 1 2 (MultiSoftmaxWithLossLayer.after_setup 1 1 2 : MultiSoftmaxWithLossLayer ℝ)
    (MultiSoftmaxWithLossLayer.Forward_cpu Real.exp Real.log (MultiSoftmaxWithLossLayer.after_setup 1 1 2 : MultiSoftmaxWithLossLayer ℝ)
        (blob_of 1 2 [(3 : ℝ), 4]) (blob_of 1 1 [(0 : ℝ)]) (top_with_weight (1 : ℝ))).1
    (blob_of 1 2 [(0 : ℝ), 0]) (blob_of 1 1 [(1 : ℝ)]) (top_with_weight (1 : ℝ)) (by decide) sample_reachable
    (MultiSoftmaxWithLossLayer.reachable.forward _ _ _ _ sample_reachable)
    ⟨rfl, rfl, rfl, rfl⟩ ⟨rfl, rfl, rfl, rfl⟩ sample_labels_in_range

/-- Claim C17 on one example of one classifier with the two scores `(0, 0)` and label
`1`. -/
theorem C17_loss_bounded_by_floor_witness :
    ∃ layer, (MultiSoftmaxWithLossLayer.LayerSetUp 1 (blob_of 1 2 [(0 : ℝ), 0]) (blob_of 1 1 [(1 : ℝ)]) >>=
        fun l => MultiSoftmaxWithLossLayer.Reshape l (blob_of 1 2 [(0 : ℝ), 0]) (blob_of 1 1 [(1 : ℝ)])) = .ok layer ∧
      (∀ n c, n < 1 → c < 1 →
        -Real.log (max (softmax_prob Real.exp (blob_of 1 2 [(0 : ℝ), 0]).cpu_data
            ((blob_of 1 2 [(0 : ℝ), 0]).offset n (c * 2) 0 0) 2
            (static_cast_int ((blob_of 1 1 [(1 : ℝ)]).data_at n c 0 0)).toNat) FLT_MIN) ≤
          -Real.log FLT_MIN) ∧
      layer.num_classifiers_ = 1 ∧
      (MultiSoftmaxWithLossLayer.Forward_cpu Real.exp Real.log layer
          (blob_of 1 2 [(0 : ℝ), 0]) (blob_of 1 1 [(1 : ℝ)]) (top_with_weight (1 : ℝ))).2.cpu_data 0 ≤ (layer.num_classifiers_ : ℝ) * (-Real.log FLT_MIN) :=
  C17_loss_bounded_by_floor 1 1 2 (blob_of 1 2 [(0 : ℝ), 0]) (blob_of 1 1 [(1 : ℝ)]) (top_with_weight (1 : ℝ))
    (le_refl 1) (le_refl 1) (by decide) ⟨rfl, rfl, rfl, rfl⟩
    ⟨rfl, rfl, rfl, rfl⟩ sample_labels_in_range

/-- Claim C18 on one example of one classifier with the two scores `(0, 0)`, label `1`
and upstream weight `1`, over the reals. -/
theorem C18_backward_twice_subtracts_twice_witness :
    ∃ layer, (MultiSoftmaxWithLossLayer.LayerSetUp 1 (blob_of 1 2 [(0 : ℝ), 0]) (blob_of 1 1 [(1 : ℝ)]) >>=
        fun l => MultiSoftmaxWithLossLayer.Reshape l (blob_of 1 2 [(0 : ℝ), 0]) (blob_of 1 1 [(1 : ℝ)])) = .ok layer ∧
      ∃ layer1 bottom01 layer2 bottom02,
        MultiSoftmaxWithLossLayer.Backward_cpu
          (MultiSoftmaxWithLossLayer.Forward_cpu Real.exp Real.log layer
          (blob_of 1 2 [(0 : ℝ), 0]) (blob_of 1 1 [(1 : ℝ)]) (top_with_weight (1 : ℝ))).1
          (MultiSoftmaxWithLossLayer.Forward_cpu Real.exp Real.log layer
          (blob_of 1 2 [(0 : ℝ), 0]) (blob_of 1 1 [(1 : ℝ)]) (top_with_weight (1 : ℝ))).2
          true false (blob_of 1 2 [(0 : ℝ), 0]) (blob_of 1 1 [(1 : ℝ)]) = .ok (layer1, bottom01) ∧
        MultiSoftmaxWithLossLayer.Backward_cpu layer1
          (MultiSoftmaxWithLossLayer.Forward_cpu Real.exp Real.log layer
          (blob_of 1 2 [(0 : ℝ), 0]) (blob_of 1 1 [(1 : ℝ)]) (top_with_weight (1 : ℝ))).2
          true false bottom01 (blob_of 1 1 [(1 : ℝ)]) = .ok (layer2, bottom02) ∧
        ∀ n c j, n < 1 → c < 1 → j < 2 →
          bottom02.cpu_diff ((blob_of 1 2 [(0 : ℝ), 0]).offset n (c * 2 + j) 0 0) =
            ((top_with_weight (1 : ℝ)).cpu_diff 0 / ((1 : Nat) : ℝ)) *
              (softmax_prob Real.exp (blob_of 1 2 [(0 : ℝ), 0]).cpu_data ((blob_of 1 2 [(0 : ℝ), 0]).offset n (c * 2) 0 0) 2 j -
                2 * (if (j : Int) = static_cast_int ((blob_of 1 1 [(1 : ℝ)]).data_at n c 0 0)
                  then 1 else 0)) ∧
          bottom02.cpu_diff ((blob_of 1 2 [(0 : ℝ), 0]).offset n (c * 2 + j) 0 0) -
              bottom01.cpu_diff ((blob_of 1 2 [(0 : ℝ), 0]).offset n (c * 2 + j) 0 0) =
            (if (j : Int) = static_cast_int ((blob_of 1 1 [(1 : ℝ)]).data_at n c 0 0)
              then -((top_with_weight (1 : ℝ)).cpu_diff 0 / ((1 : Nat) : ℝ)) else 0) :=
  C18_backward_twice_subtracts_twice Real.exp Real.log 1 1 2 (blob_of 1 2 [(0 : ℝ), 0]) (blob_of 1 1 [(1 : ℝ)]) (top_with_weight (1 : ℝ))
    (le_refl 1) (le_refl 1) (by decide) ⟨rfl, rfl, rfl, rfl⟩
    ⟨rfl, rfl, rfl, rfl⟩ sample_labels_in_range

end Protocol

end caffe
